import Mathlib

/-!
Shallow embedding of the NostraEstima planning-poker server
(src/server.js, src/db/index.js) and proofs about its room/session
lifecycle, vote sanitization, capacity, expiry, authorization,
averaging, and grace-period deletion logic.

Conventions of the embedding:
* JavaScript numbers that the application actually exchanges as votes are
  the integer card values of public/script.js, so the numeric payload of a
  vote is modelled as an `Int`; string payloads are modelled as `String`.
* The SQLite store of src/db/index.js is modelled as lists of rows in
  insertion order; `ORDER BY joined_at ASC` returns members in insertion
  order because `joined_at` is assigned from a monotone clock.
* Timestamps are naturals (milliseconds, or seconds for stored rows,
  exactly as in the source, which stores seconds and multiplies by 1000
  when reading).
* The `Number(string)` conversion of JavaScript is modelled on its
  decimal-integer fragment (optional sign, decimal digits, and the empty
  string converting to 0); every value the store can contain that was
  produced by the application itself lies in this fragment.
-/

set_option autoImplicit false

namespace NostraEstima

/-! ## JavaScript value model -/

/-- A (non-null) JSON value submitted as a vote: a number or a string. -/
inductive Val where
  | num (n : Int)
  | str (s : String)
deriving DecidableEq, Repr

/-- Decimal digit test on characters. -/
def isDigitChar (c : Char) : Bool := 48 ≤ c.toNat && c.toNat ≤ 57

/-- Accumulate a digit list into a natural number (most significant first). -/
def digitsVal (cs : List Char) : Nat :=
  cs.foldl (fun a c => a * 10 + (c.toNat - 48)) 0

/-- Parse a nonempty all-digit character list. -/
def parseNatDigits (cs : List Char) : Option Nat :=
  if cs ≠ [] ∧ cs.all isDigitChar then some (digitsVal cs) else none

/-- Models the JavaScript conversion Number(string) on its decimal-integer
fragment: the empty string converts to 0, an optional sign followed by
decimal digits converts to the signed integer, and everything else is NaN
(modelled as `none`). -/
def jsNumberOfString (s : String) : Option Int :=
  match s.data with
  | [] => some 0
  | c :: cs =>
    if c = '-' then (parseNatDigits cs).map (fun n => -(n : Int))
    else if c = '+' then (parseNatDigits cs).map (fun n => (n : Int))
    else (parseNatDigits (c :: cs)).map (fun n => (n : Int))

/-- The decimal digit character for a digit value. -/
def digitChar (d : Nat) : Char := Char.ofNat (48 + d)

/-- Decimal rendering of a natural number, as JavaScript String() does. -/
def natToChars (n : Nat) : List Char :=
  if _h : n < 10 then [digitChar n]
  else natToChars (n / 10) ++ [digitChar (n % 10)]
termination_by n
decreasing_by
  exact Nat.div_lt_self (by omega) (by omega)

/-- Models JavaScript String(n) for an integer n. -/
def intToString (i : Int) : String :=
  if i < 0 then ⟨'-' :: natToChars i.natAbs⟩ else ⟨natToChars i.natAbs⟩

theorem digitChar_toNat {d : Nat} (h : d < 10) : (digitChar d).toNat = 48 + d := by
  interval_cases d <;> decide

theorem isDigitChar_digitChar {d : Nat} (h : d < 10) : isDigitChar (digitChar d) = true := by
  interval_cases d <;> decide

theorem natToChars_ne_nil (n : Nat) : natToChars n ≠ [] := by
  rw [natToChars]
  split <;> simp

theorem natToChars_all_digits (n : Nat) : (natToChars n).all isDigitChar = true := by
  induction n using Nat.strong_induction_on with
  | _ n ih =>
    rw [natToChars]
    split
    · simpa using isDigitChar_digitChar (by omega)
    · rename_i h
      rw [List.all_append, ih (n / 10) (Nat.div_lt_self (by omega) (by omega))]
      simpa using isDigitChar_digitChar (Nat.mod_lt _ (by omega))

theorem digitsVal_append (cs : List Char) (c : Char) :
    digitsVal (cs ++ [c]) = digitsVal cs * 10 + (c.toNat - 48) := by
  simp [digitsVal, List.foldl_append]

theorem digitsVal_natToChars (n : Nat) : digitsVal (natToChars n) = n := by
  induction n using Nat.strong_induction_on with
  | _ n ih =>
    rw [natToChars]
    split
    · rename_i h
      simp [digitsVal, digitChar_toNat h]
    · rename_i h
      rw [digitsVal_append, ih (n / 10) (Nat.div_lt_self (by omega) (by omega)),
        digitChar_toNat (Nat.mod_lt _ (by omega))]
      omega

theorem parseNatDigits_natToChars (n : Nat) :
    parseNatDigits (natToChars n) = some n := by
  simp [parseNatDigits, natToChars_ne_nil, natToChars_all_digits, digitsVal_natToChars]

theorem head_natToChars_not_sign {n : Nat} (c : Char) (cs : List Char)
    (h : natToChars n = c :: cs) : c ≠ '-' ∧ c ≠ '+' := by
  have hall := natToChars_all_digits n
  rw [h] at hall
  simp [List.all_cons] at hall
  constructor <;> rintro rfl <;> simp [isDigitChar] at hall

/-- JavaScript number-to-string followed by string-to-number is the
identity on integers. -/
theorem jsNumberOfString_intToString (i : Int) :
    jsNumberOfString (intToString i) = some i := by
  by_cases hi : i < 0
  · simp only [intToString, if_pos hi, jsNumberOfString]
    simp only [parseNatDigits_natToChars, Option.map_some, if_true, reduceIte]
    have habs : (i.natAbs : Int) = -i := by
      rcases Int.natAbs_eq i with he | he
      · omega
      · omega
    simp [habs]
  · simp only [intToString, if_neg hi]
    rcases hcs : natToChars i.natAbs with _ | ⟨c, cs⟩
    · exact absurd hcs (natToChars_ne_nil _)
    · obtain ⟨hm, hp⟩ := head_natToChars_not_sign c cs hcs
      simp only [jsNumberOfString, hcs, if_neg hm, if_neg hp]
      rw [← hcs, parseNatDigits_natToChars]
      simp
      omega

/-! ## Stored values (src/db/index.js)

The store keeps the vote in a TEXT column.  `updateMemberPoint` and
`addMember` store String(point); every reader re-parses the text with
point !== null ? (isNaN(Number(point)) ? point : Number(point)) : null. -/

/-- Models String(point) of updateMemberPoint and addMember. -/
def valToDbString : Val → String
  | .num n => intToString n
  | .str s => s

/-- Models isNaN(Number(p)) ? p : Number(p), the parsing applied by
getRoom, getMemberBySession, getMemberByName and getMemberBySocket. -/
def parseDbPoint (s : String) : Val :=
  match jsNumberOfString s with
  | some n => .num n
  | none => .str s

/-- The net effect on a vote value of storing it as TEXT and reading it
back: numbers survive exactly; a string that parses as a number comes
back as that number. -/
def coerceVote (v : Val) : Val := parseDbPoint (valToDbString v)

/-- JavaScript loose equality (the == operator) restricted to the modelled
values: identical values are equal, and a number equals a string whose
numeric conversion yields that number. -/
def jsLooseEq (a b : Val) : Bool :=
  match a, b with
  | .num n, .num m => n = m
  | .str s, .str t => s = t
  | .num n, .str t => jsNumberOfString t = some n
  | .str s, .num m => jsNumberOfString s = some m

theorem coerceVote_num (n : Int) : coerceVote (.num n) = .num n := by
  simp [coerceVote, valToDbString, parseDbPoint, jsNumberOfString_intToString]

theorem coerceVote_str_of_nonnumeric (s : String) (h : jsNumberOfString s = none) :
    coerceVote (.str s) = .str s := by
  simp [coerceVote, valToDbString, parseDbPoint, h]

theorem jsLooseEq_coerceVote (v : Val) : jsLooseEq (coerceVote v) v = true := by
  rcases v with n | s
  · simp [coerceVote_num, jsLooseEq]
  · simp only [coerceVote, valToDbString, parseDbPoint]
    rcases h : jsNumberOfString s with _ | n <;> simp [jsLooseEq, h]

/-! ## Database rows and state (src/db/index.js) -/

/-- The whitespace test of the JavaScript String.prototype.trim, on its
ASCII fragment. -/
def isWsChar (c : Char) : Bool := c = ' ' || c = '\t' || c = '\n' || c = '\r'

/-- Models the JavaScript String.prototype.trim (ASCII whitespace). -/
def jsTrim (s : String) : String :=
  ⟨((s.data.dropWhile isWsChar).reverse.dropWhile isWsChar).reverse⟩

/-- A row of the room_members table.  Member ids are randomUUID() in the
source; the model draws them from a fresh-id counter, which preserves
exactly the property the source relies on (ids are never reused). -/
structure MemberRow where
  id : Nat
  roomId : String
  sessionId : Option String
  socketId : Option String
  name : String
  point : Option String
  connected : Bool
  joinedAt : Nat
deriving DecidableEq, Repr

/-- A row of the rooms table.  The updated_at column is omitted: no reader
in the source ever returns or consults it.  created_at is in seconds, as
stored by the source. -/
structure RoomRow where
  id : String
  taskTitle : String
  taskDescription : Option String
  adminToken : String
  adminName : String
  revealed : Bool
  createdAt : Nat
deriving DecidableEq, Repr

/-- The SQLite database: both tables, plus the fresh-id counter standing
in for randomUUID() uniqueness of member ids. -/
structure DB where
  rooms : List RoomRow
  members : List MemberRow
  nextId : Nat
deriving DecidableEq, Repr

namespace DB

/-- Models SELECT * FROM rooms WHERE id = ?. -/
def getRoomRow (db : DB) (roomId : String) : Option RoomRow :=
  db.rooms.find? (fun r => r.id == roomId)

/-- Models SELECT * FROM room_members WHERE room_id = ? ORDER BY joined_at
ASC (insertion order, since joined_at is assigned monotonically). -/
def membersOf (db : DB) (roomId : String) : List MemberRow :=
  db.members.filter (fun m => m.roomId == roomId)

/-- Models createRoom: INSERT a fresh room row (id and adminToken are
supplied by the caller, as server.js generates them). -/
def createRoom (db : DB) (row : RoomRow) : DB :=
  { db with rooms := db.rooms ++ [row] }

/-- Models setRoomRevealed. -/
def setRoomRevealed (db : DB) (roomId : String) (revealed : Bool) : DB :=
  { db with rooms := db.rooms.map (fun r => if r.id = roomId then { r with revealed := revealed } else r) }

/-- Models deleteRoom: DELETE FROM rooms WHERE id = ?, with the member
rows removed by ON DELETE CASCADE. -/
def deleteRoom (db : DB) (roomId : String) : DB :=
  { db with
    rooms := db.rooms.filter (fun r => r.id ≠ roomId)
    members := db.members.filter (fun m => m.roomId ≠ roomId) }

/-- Models getExpiredRooms: ids of rooms with created_at strictly below
the cutoff Math.floor((now - maxAgeMs) / 1000). -/
def getExpiredRooms (db : DB) (now maxAgeMs : Nat) : List String :=
  ((db.rooms.filter (fun r => r.createdAt < (now - maxAgeMs) / 1000)).map (fun r => r.id))

/-- Models addMember: INSERT returning null on a UNIQUE(room_id, name)
constraint violation.  The stored point is String(point) when non-null. -/
def addMember (db : DB) (roomId : String) (sessionId socketId : Option String)
    (name : String) (point : Option Val) (connected : Bool) (now : Nat) :
    Option (MemberRow × DB) :=
  if db.members.any (fun m => m.roomId == roomId && m.name == name) then
    none
  else
    let row : MemberRow :=
      { id := db.nextId, roomId := roomId, sessionId := sessionId,
        socketId := socketId, name := name,
        point := point.map valToDbString, connected := connected,
        joinedAt := now }
    some (row, { db with members := db.members ++ [row], nextId := db.nextId + 1 })

/-- Models SELECT * FROM room_members WHERE room_id = ? AND session_id = ?
(a NULL session_id matches nothing, as in SQL). -/
def getMemberRowBySession (db : DB) (roomId : String) (sessionId : Option String) :
    Option MemberRow :=
  match sessionId with
  | none => none
  | some sid => db.members.find? (fun m => m.roomId == roomId && m.sessionId == some sid)

/-- Models SELECT * FROM room_members WHERE room_id = ? AND name = ?. -/
def getMemberRowByName (db : DB) (roomId : String) (name : String) : Option MemberRow :=
  db.members.find? (fun m => m.roomId == roomId && m.name == name)

/-- Models SELECT * FROM room_members WHERE room_id = ? AND socket_id = ?. -/
def getMemberRowBySocket (db : DB) (roomId : String) (socketId : String) : Option MemberRow :=
  db.members.find? (fun m => m.roomId == roomId && m.socketId == some socketId)

/-- Models updateMemberPoint: UPDATE room_members SET point = ? WHERE id = ?,
storing String(point) for a non-null point. -/
def updateMemberPoint (db : DB) (memberId : Nat) (point : Option Val) : DB :=
  { db with
    members := db.members.map (fun m =>
      if m.id = memberId then { m with point := point.map valToDbString } else m) }

/-- Models updateMemberConnection: UPDATE room_members SET socket_id = ?,
connected = ? WHERE id = ?. -/
def updateMemberConnection (db : DB) (memberId : Nat) (socketId : Option String)
    (connected : Bool) : DB :=
  { db with
    members := db.members.map (fun m =>
      if m.id = memberId then { m with socketId := socketId, connected := connected } else m) }

/-- Models updateMemberSocket: UPDATE room_members SET socket_id = ?,
session_id = ?, connected = ? WHERE id = ?. -/
def updateMemberSocket (db : DB) (memberId : Nat) (socketId sessionId : Option String)
    (connected : Bool) : DB :=
  { db with
    members := db.members.map (fun m =>
      if m.id = memberId then
        { m with socketId := socketId, sessionId := sessionId, connected := connected }
      else m) }

/-- Models resetAllMemberPoints: UPDATE room_members SET point = NULL
WHERE room_id = ?. -/
def resetAllMemberPoints (db : DB) (roomId : String) : DB :=
  { db with
    members := db.members.map (fun m =>
      if m.roomId = roomId then { m with point := none } else m) }

/-- Models getConnectedMemberCount: COUNT(*) WHERE room_id = ? AND connected = 1. -/
def getConnectedMemberCount (db : DB) (roomId : String) : Nat :=
  (db.members.filter (fun m => m.roomId == roomId && m.connected)).length

end DB

/-! ## Parsed views (the objects the JavaScript handlers actually touch) -/

/-- A member as returned by the read functions of src/db/index.js: the
stored TEXT point re-parsed, timestamps scaled to milliseconds. -/
structure Member where
  id : Nat
  sessionId : Option String
  socketId : Option String
  name : String
  point : Option Val
  connected : Bool
  joinedAt : Nat
deriving DecidableEq, Repr

/-- Parsing of a member row, as done identically in getRoom,
getMemberBySession, getMemberByName and getMemberBySocket. -/
def parseMemberRow (m : MemberRow) : Member :=
  { id := m.id, sessionId := m.sessionId, socketId := m.socketId,
    name := m.name, point := m.point.map parseDbPoint,
    connected := m.connected, joinedAt := m.joinedAt * 1000 }

/-- A room as returned by getRoom, members included. -/
structure Room where
  id : String
  taskTitle : String
  taskDescription : Option String
  adminToken : String
  adminName : String
  revealed : Bool
  createdAt : Nat
  members : List Member
deriving DecidableEq, Repr

namespace DB

/-- The parsed member list of a room, exactly as getRoom computes it. -/
def parsedMembers (db : DB) (roomId : String) : List Member :=
  (db.membersOf roomId).map parseMemberRow

/-- The room object getRoom builds from a stored row: the row fields with
created_at scaled to milliseconds, plus the parsed member list. -/
def roomOfRow (db : DB) (roomId : String) (r : RoomRow) : Room :=
  { id := r.id, taskTitle := r.taskTitle, taskDescription := r.taskDescription,
    adminToken := r.adminToken, adminName := r.adminName, revealed := r.revealed,
    createdAt := r.createdAt * 1000,
    members := db.parsedMembers roomId }

/-- Models getRoom: the room row with its member list, parsed. -/
def getRoom (db : DB) (roomId : String) : Option Room :=
  (db.getRoomRow roomId).map (db.roomOfRow roomId)

/-- Models getMemberBySession (parsed view). -/
def getMemberBySession (db : DB) (roomId : String) (sessionId : Option String) :
    Option Member :=
  (db.getMemberRowBySession roomId sessionId).map parseMemberRow

/-- Models getMemberByName (parsed view). -/
def getMemberByName (db : DB) (roomId : String) (name : String) : Option Member :=
  (db.getMemberRowByName roomId name).map parseMemberRow

/-- Models getMemberBySocket (parsed view). -/
def getMemberBySocket (db : DB) (roomId : String) (socketId : String) : Option Member :=
  (db.getMemberRowBySocket roomId socketId).map parseMemberRow

end DB

/-! ## Sanitized payloads and events (server.js) -/

/-- A member as included in a sanitized broadcast payload. -/
structure SanMember where
  name : String
  hasVoted : Bool
  point : Option Val
  connected : Bool
deriving DecidableEq, Repr

/-- Models getSanitizedMembers of server.js: hasVoted is point !== null,
and the point itself is forwarded only when the room is revealed. -/
def getSanitizedMembers (room : Room) : List SanMember :=
  room.members.map (fun m =>
    { name := m.name, hasVoted := m.point.isSome,
      point := if room.revealed then m.point else none,
      connected := m.connected })

/-- Models getSanitizedRoom of server.js. -/
structure SanRoom where
  id : String
  taskTitle : String
  taskDescription : Option String
  members : List SanMember
  revealed : Bool
  adminName : String
deriving DecidableEq, Repr

def getSanitizedRoom (room : Room) : SanRoom :=
  { id := room.id, taskTitle := room.taskTitle, taskDescription := room.taskDescription,
    members := getSanitizedMembers room, revealed := room.revealed,
    adminName := room.adminName }

/-- A per-member entry of the votes:revealed broadcast (raw point). -/
structure RevealEntry where
  name : String
  point : Option Val
  hasVoted : Bool
deriving DecidableEq, Repr

/-- The previousVote value of the room:joined payload: the raw point when
the room is revealed, otherwise only the has-voted boolean. -/
inductive PrevVote where
  | value (p : Option Val)
  | voted (b : Bool)
deriving DecidableEq, Repr

/-- The per-room session record written into req.session.rooms. -/
structure UserSession where
  name : String
  isAdmin : Bool
  adminToken : Option String
  joinedAt : Nat
deriving DecidableEq, Repr

/-- An express session as shared with a socket handshake. -/
structure Session where
  id : String
  rooms : List (String × UserSession)
deriving DecidableEq, Repr

/-- Lookup of socketSession.rooms?.[roomId]. -/
def Session.lookup (sess : Session) (roomId : String) : Option UserSession :=
  (sess.rooms.find? (fun p => p.1 == roomId)).map (fun p => p.2)

/-- A live socket: its id plus the handshake session (possibly absent). -/
structure Sock where
  id : String
  session : Option Session
deriving DecidableEq, Repr

/-- The attributes a joined socket carries into its disconnect handler
(socket.roomId, socket.userName, socket.sessionId, socket.memberId). -/
structure SockAttrs where
  roomId : String
  userName : String
  sessionId : Option String
  memberId : Nat
deriving DecidableEq, Repr

/-- Every message the server emits.  Broadcasts carry the room id of the
channel they go to; single-socket emits carry the socket id.  A session
write is recorded as an event so that its content can be reasoned about. -/
inductive Event where
  | roomError (socketId : String) (message : String)
  | roomExpired (roomId : String) (message : String)
  | needsJoin (socketId : String) (roomId : String)
  | roomJoined (socketId : String) (room : SanRoom) (isAdmin : Bool) (userName : String)
      (isReconnecting : Bool) (isNewUser : Bool) (previousVote : PrevVote)
  | memberJoined (roomId : String) (newMemberName : String) (members : List SanMember)
  | memberReconnected (roomId : String) (memberName : String) (members : List SanMember)
  | voteUpdated (roomId : String) (members : List SanMember) (voterName : String)
  | votesRevealed (roomId : String) (entries : List RevealEntry) (average : Option ℚ)
  | votesReset (roomId : String) (members : List SanMember)
  | roomEnded (roomId : String) (message : String)
  | memberDisconnected (roomId : String) (memberName : String) (members : List SanMember)
  | sessionWrite (sessionId : String) (roomId : String) (record : UserSession)
deriving DecidableEq, Repr

/-- The HTTP response of an express route. -/
inductive HttpResult where
  | redirect (path : String)
  | renderJoin (error : Option String)
  | renderRoom
deriving DecidableEq, Repr

/-- The whole mutable server state: the SQLite store, the
pendingDisconnections map (key to the room id whose deletion the stored
timer would perform), and the current clock in milliseconds. -/
structure ServerState where
  db : DB
  pending : List (String × String)
  now : Nat
deriving DecidableEq, Repr

/-! ## Constants (server.js lines 42-45) -/

def MAX_ROOM_CAPACITY : Nat := 10

def ROOM_DURATION_MS : Nat := 10 * 60 * 1000

def DISCONNECT_GRACE_PERIOD_MS : Nat := 30 * 1000

/-- Models isRoomExpired: Date.now() - room.createdAt > ROOM_DURATION_MS.
Natural subtraction agrees with the JavaScript comparison whether or not
the clock is ahead of createdAt. -/
def isRoomExpired (now : Nat) (room : Room) : Bool :=
  ROOM_DURATION_MS < now - room.createdAt

/-- Models checkRoomExpiration: true when the room is missing or expired;
an expired room is deleted after an expiry broadcast to its channel. -/
def checkRoomExpiration (s : ServerState) (roomId : String) :
    ServerState × List Event × Bool :=
  match s.db.getRoom roomId with
  | none => (s, [], true)
  | some room =>
    if isRoomExpired s.now room then
      ({ s with db := s.db.deleteRoom roomId },
        [Event.roomExpired roomId "Room has expired after 10 minutes."], true)
    else (s, [], false)

/-! ## Realtime handlers (server.js) -/

/-- The name / admin-token / is-new-user resolution of the room:join
handler (server.js lines 336-355): a session record for the room wins;
otherwise a nonempty requested name is used; otherwise the caller must be
prompted for a name (none). -/
def joinResolution (sock : Sock) (roomId : String) (name adminToken : Option String) :
    Option (String × Option String × Bool) :=
  match sock.session.bind (fun sess => sess.lookup roomId) with
  | some us =>
    some (us.name,
      (match us.adminToken with
       | some t => if t = "" then none else some t
       | none => none),
      false)
  | none =>
    match name with
    | none => none
    | some nm => if nm = "" then none else some (nm, adminToken, true)

/-- The existing-member lookup of the room:join handler (server.js lines
365-369): by session identifier first, then by (nonempty) name. -/
def joinExistingMember (db : DB) (roomId : String) (sock : Sock) (userName : String) :
    Option Member :=
  match db.getMemberBySession roomId (sock.session.map Session.id) with
  | some em => some em
  | none =>
    if userName ≠ "" then db.getMemberByName roomId userName else none

/-- Models the room:join handler (server.js lines 313-467). -/
def roomJoinHandler (s : ServerState) (sock : Sock) (roomId : String)
    (name adminToken : Option String) : ServerState × List Event :=
  let chk := checkRoomExpiration s roomId
  let s1 := chk.1
  let evs := chk.2.1
  if chk.2.2 then
    (s1, evs ++ [Event.roomError sock.id "Room not found or has expired."])
  else
    match s1.db.getRoom roomId with
    | none => (s1, evs ++ [Event.roomError sock.id "Room not found."])
    | some room =>
      let sessionIdentifier := sock.session.map Session.id
      let userSession := sock.session.bind (fun sess => sess.lookup roomId)
      match joinResolution sock roomId name adminToken with
      | none => (s1, evs ++ [Event.needsJoin sock.id roomId])
      | some (userName, userAdminToken, isNewUser) =>
        let pendingKey := roomId ++ ":" ++
          (match sessionIdentifier with
           | some x => x
           | none => "undefined")
        let s2 := { s1 with pending := s1.pending.filter (fun p => p.1 ≠ pendingKey) }
        let existingMember := joinExistingMember s2.db roomId sock userName
        if existingMember = none ∧ MAX_ROOM_CAPACITY ≤ room.members.length then
          (s2, evs ++ [Event.roomError sock.id "Room is full. Maximum 10 users allowed."])
        else
          let isAdmin := userAdminToken == some room.adminToken
          match existingMember with
          | some em =>
            let isReconnecting := em.connected || em.socketId.isSome
            let isFirstConnection := !isReconnecting
            let db2 := s2.db.updateMemberSocket em.id (some sock.id) sessionIdentifier true
            let member : Member :=
              { em with
                socketId := some sock.id
                sessionId := sessionIdentifier
                connected := true }
            let s3 := { s2 with db := db2 }
            match db2.getRoom roomId with
            | none => (s3, evs)
            | some freshRoom =>
              let joined := Event.roomJoined sock.id (getSanitizedRoom freshRoom) isAdmin
                userName isReconnecting isNewUser
                (if freshRoom.revealed then PrevVote.value member.point
                 else PrevVote.voted member.point.isSome)
              let notify :=
                if !isReconnecting || isFirstConnection then
                  Event.memberJoined roomId userName (getSanitizedMembers freshRoom)
                else
                  Event.memberReconnected roomId userName (getSanitizedMembers freshRoom)
              (s3, evs ++ [joined, notify])
          | none =>
            match s2.db.addMember roomId sessionIdentifier (some sock.id) userName none true
              (s2.now / 1000) with
            | none =>
              (s2, evs ++ [Event.roomError sock.id "This name is already taken in the room."])
            | some (row, db2) =>
              let member := parseMemberRow row
              let sessionEvs :=
                match sock.session, userSession with
                | some sess, none =>
                  [Event.sessionWrite sess.id roomId
                    { name := userName,
                      isAdmin := userAdminToken == some room.adminToken,
                      adminToken :=
                        if userAdminToken == some room.adminToken then userAdminToken else none,
                      joinedAt := s2.now }]
                | _, _ => []
              let s3 := { s2 with db := db2 }
              match db2.getRoom roomId with
              | none => (s3, evs ++ sessionEvs)
              | some freshRoom =>
                let joined := Event.roomJoined sock.id (getSanitizedRoom freshRoom) isAdmin
                  userName false isNewUser
                  (if freshRoom.revealed then PrevVote.value member.point
                   else PrevVote.voted member.point.isSome)
                let notify := Event.memberJoined roomId userName (getSanitizedMembers freshRoom)
                (s3, evs ++ sessionEvs ++ [joined, notify])

/-- Models the vote:submit handler (server.js lines 470-497). -/
def voteSubmitHandler (s : ServerState) (sock : Sock) (roomId : String)
    (point : Option Val) : ServerState × List Event :=
  let chk := checkRoomExpiration s roomId
  let s1 := chk.1
  let evs := chk.2.1
  if chk.2.2 then
    (s1, evs ++ [Event.roomError sock.id "Room not found or has expired."])
  else
    match s1.db.getMemberBySocket roomId sock.id with
    | none => (s1, evs ++ [Event.roomError sock.id "You are not a member of this room."])
    | some member =>
      let db2 := s1.db.updateMemberPoint member.id point
      let s2 := { s1 with db := db2 }
      match db2.getRoom roomId with
      | none => (s2, evs)
      | some room =>
        (s2, evs ++ [Event.voteUpdated roomId (getSanitizedMembers room) member.name])

/-- The admin check used verbatim by votes:reveal, votes:reset and
room:end: the session record for the room must exist, its cached isAdmin
flag must be true, and its stored adminToken must equal the adminToken of
the room (server.js lines 512-521, 565-572, 600-609). -/
def isAuthorizedAdmin (sock : Sock) (roomId : String) (room : Room) : Bool :=
  match sock.session with
  | none => false
  | some sess =>
    match sess.lookup roomId with
    | none => false
    | some us => us.isAdmin && us.adminToken == some room.adminToken

/-- Models Number.prototype.toFixed(1) as a rational: one decimal place,
ties rounded upward, which on the nonnegative card averages the
application produces agrees with the away-from-zero tie rounding of
toFixed. -/
def toFixed1 (q : ℚ) : ℚ := ((round (q * 10) : ℤ) : ℚ) / 10

/-- The numeric votes of a member list: points that are present and of
number type (server.js lines 530-532). -/
def numericVotes (members : List Member) : List Int :=
  members.filterMap (fun m =>
    match m.point with
    | some (Val.num n) => some n
    | _ => none)

/-- The average of server.js lines 534-537: the mean of the numeric votes
to one decimal place, null when no numeric vote exists. -/
def computeAverage (members : List Member) : Option ℚ :=
  let nv := numericVotes members
  if 0 < nv.length then some (toFixed1 ((nv.sum : ℚ) / (nv.length : ℚ))) else none

/-- Models the votes:reveal handler (server.js lines 500-550). -/
def votesRevealHandler (s : ServerState) (sock : Sock) (roomId : String) :
    ServerState × List Event :=
  let chk := checkRoomExpiration s roomId
  let s1 := chk.1
  let evs := chk.2.1
  if chk.2.2 then
    (s1, evs ++ [Event.roomError sock.id "Room not found or has expired."])
  else
    match s1.db.getRoom roomId with
    | none => (s1, evs ++ [Event.roomError sock.id "Room not found."])
    | some room =>
      if !(isAuthorizedAdmin sock roomId room) then
        (s1, evs ++ [Event.roomError sock.id "Only the admin can reveal votes."])
      else
        let db2 := s1.db.setRoomRevealed roomId true
        let s2 := { s1 with db := db2 }
        match db2.getRoom roomId with
        | none => (s2, evs)
        | some freshRoom =>
          (s2, evs ++ [Event.votesRevealed roomId
            (freshRoom.members.map (fun m =>
              { name := m.name, point := m.point, hasVoted := m.point.isSome }))
            (computeAverage freshRoom.members)])

/-- Models the votes:reset handler (server.js lines 553-587). -/
def votesResetHandler (s : ServerState) (sock : Sock) (roomId : String) :
    ServerState × List Event :=
  let chk := checkRoomExpiration s roomId
  let s1 := chk.1
  let evs := chk.2.1
  if chk.2.2 then
    (s1, evs ++ [Event.roomError sock.id "Room not found or has expired."])
  else
    match s1.db.getRoom roomId with
    | none => (s1, evs ++ [Event.roomError sock.id "Room not found."])
    | some room =>
      if !(isAuthorizedAdmin sock roomId room) then
        (s1, evs ++ [Event.roomError sock.id "Only the admin can reset votes."])
      else
        let db2 := (s1.db.resetAllMemberPoints roomId).setRoomRevealed roomId false
        let s2 := { s1 with db := db2 }
        match db2.getRoom roomId with
        | none => (s2, evs)
        | some freshRoom =>
          (s2, evs ++ [Event.votesReset roomId (getSanitizedMembers freshRoom)])

/-- Models the room:end handler (server.js lines 590-620).  Note that it
performs no expiration check: only existence and the admin check. -/
def roomEndHandler (s : ServerState) (sock : Sock) (roomId : String) :
    ServerState × List Event :=
  match s.db.getRoom roomId with
  | none => (s, [Event.roomError sock.id "Room not found or has already ended."])
  | some room =>
    if !(isAuthorizedAdmin sock roomId room) then
      (s, [Event.roomError sock.id "Only the admin can end the session."])
    else
      ({ s with db := s.db.deleteRoom roomId },
        [Event.roomEnded roomId "The session has been ended by the admin."])

/-- Models the disconnect handler (server.js lines 623-669).  The
pendingDisconnections entry for the room, when one is installed, is keyed
by the string room:ROOMID. -/
def disconnectHandler (s : ServerState) (attrs : Option SockAttrs) :
    ServerState × List Event :=
  match attrs with
  | none => (s, [])
  | some a =>
    let db1 := s.db.updateMemberConnection a.memberId none false
    match db1.getRoom a.roomId with
    | none => ({ s with db := db1 }, [])
    | some room =>
      let evs := [Event.memberDisconnected a.roomId a.userName (getSanitizedMembers room)]
      if db1.getConnectedMemberCount a.roomId = 0 then
        let pendingKey := "room:" ++ a.roomId
        ({ s with
            db := db1
            pending := (pendingKey, a.roomId) :: s.pending.filter (fun p => p.1 ≠ pendingKey) },
          evs)
      else
        ({ s with db := db1 }, evs)

/-- Models the firing of the grace-period deletion timer installed by the
disconnect handler (the setTimeout callback of server.js lines 656-663):
the room is deleted only when its connected-member count is still zero at
fire time, and the pending entry is removed in every case. -/
def roomDeletionTimerFire (s : ServerState) (key roomId : String) :
    ServerState × List Event :=
  if s.db.getConnectedMemberCount roomId = 0 then
    ({ s with
        db := s.db.deleteRoom roomId
        pending := s.pending.filter (fun p => p.1 ≠ key) }, [])
  else
    ({ s with pending := s.pending.filter (fun p => p.1 ≠ key) }, [])

/-- Models one tick of the periodic cleanup interval (server.js lines
53-72): every room past the lifetime is notified and deleted. -/
def cleanupTick (s : ServerState) : ServerState × List Event :=
  let ids := s.db.getExpiredRooms s.now ROOM_DURATION_MS
  (ids.foldl (fun st rid => { st with db := st.db.deleteRoom rid }) s,
    ids.map (fun rid => Event.roomExpired rid "Room has expired after 10 minutes."))

/-! ## HTTP routes (server.js) -/

/-- Models GET /play/:id (server.js lines 130-170). -/
def httpViewRoom (s : ServerState) (roomId : String) (sess : Option Session) :
    ServerState × List Event × HttpResult :=
  match s.db.getRoom roomId with
  | none => (s, [], HttpResult.redirect "/play")
  | some room =>
    if isRoomExpired s.now room then
      ({ s with db := s.db.deleteRoom roomId }, [], HttpResult.redirect "/play")
    else
      match sess.bind (fun ss => ss.lookup roomId) with
      | none => (s, [], HttpResult.renderJoin none)
      | some _ => (s, [], HttpResult.renderRoom)

/-- Models POST /play/:id/join (server.js lines 173-262). -/
def httpJoinRoom (s : ServerState) (roomId : String) (name : Option String)
    (sess : Session) : ServerState × List Event × HttpResult :=
  match s.db.getRoom roomId with
  | none => (s, [], HttpResult.redirect "/play")
  | some room =>
    if isRoomExpired s.now room then
      ({ s with db := s.db.deleteRoom roomId }, [], HttpResult.redirect "/play")
    else
      match name.map jsTrim with
      | none => (s, [], HttpResult.renderJoin (some "Please enter your name."))
      | some nm =>
        if nm = "" then
          (s, [], HttpResult.renderJoin (some "Please enter your name."))
        else if (s.db.getMemberByName roomId nm).isSome then
          (s, [], HttpResult.renderJoin (some "This name is already taken in the room."))
        else if MAX_ROOM_CAPACITY ≤ room.members.length then
          (s, [], HttpResult.renderJoin (some "Room is full. Maximum 10 users allowed."))
        else
          match s.db.addMember roomId (some sess.id) none nm none false (s.now / 1000) with
          | none =>
            (s, [], HttpResult.renderJoin (some "This name is already taken in the room."))
          | some (_, db2) =>
            ({ s with db := db2 },
              [Event.sessionWrite sess.id roomId
                { name := nm, isAdmin := false, adminToken := none, joinedAt := s.now }],
              HttpResult.redirect ("/play/" ++ roomId))

/-- Models POST /register (server.js lines 265-296).  The fresh room id
and admin token are inputs standing for the randomUUID() calls. -/
def httpRegister (s : ServerState) (newRoomId adminTok taskTitle : String)
    (taskDescription : Option String) (adminName : String) (sess : Session) :
    ServerState × List Event × HttpResult :=
  let row : RoomRow :=
    { id := newRoomId, taskTitle := taskTitle, taskDescription := taskDescription,
      adminToken := adminTok, adminName := adminName, revealed := false,
      createdAt := s.now / 1000 }
  ({ s with db := s.db.createRoom row },
    [Event.sessionWrite sess.id newRoomId
      { name := adminName, isAdmin := true, adminToken := some adminTok, joinedAt := s.now }],
    HttpResult.redirect ("/play/" ++ newRoomId))

/-! ## The global step relation -/

/-- Every inbound server operation, with the inputs its handler receives. -/
inductive Op where
  | httpView (roomId : String) (sess : Option Session)
  | httpJoin (roomId : String) (name : Option String) (sess : Session)
  | register (newRoomId adminTok taskTitle : String) (taskDescription : Option String)
      (adminName : String) (sess : Session)
  | rtJoin (sock : Sock) (roomId : String) (name adminToken : Option String)
  | rtVote (sock : Sock) (roomId : String) (point : Option Val)
  | rtReveal (sock : Sock) (roomId : String)
  | rtReset (sock : Sock) (roomId : String)
  | rtEnd (sock : Sock) (roomId : String)
  | sockDisconnect (attrs : Option SockAttrs)
  | timerFire (key roomId : String)
  | sweep
deriving DecidableEq, Repr

/-- One atomic dispatch of the single-threaded event loop. -/
def step (s : ServerState) : Op → ServerState × List Event
  | Op.httpView roomId sess =>
    let r := httpViewRoom s roomId sess
    (r.1, r.2.1)
  | Op.httpJoin roomId name sess =>
    let r := httpJoinRoom s roomId name sess
    (r.1, r.2.1)
  | Op.register newRoomId adminTok taskTitle taskDescription adminName sess =>
    let r := httpRegister s newRoomId adminTok taskTitle taskDescription adminName sess
    (r.1, r.2.1)
  | Op.rtJoin sock roomId name adminToken => roomJoinHandler s sock roomId name adminToken
  | Op.rtVote sock roomId point => voteSubmitHandler s sock roomId point
  | Op.rtReveal sock roomId => votesRevealHandler s sock roomId
  | Op.rtReset sock roomId => votesResetHandler s sock roomId
  | Op.rtEnd sock roomId => roomEndHandler s sock roomId
  | Op.sockDisconnect attrs => disconnectHandler s attrs
  | Op.timerFire key roomId => roomDeletionTimerFire s key roomId
  | Op.sweep => cleanupTick s

/-! ## Generic list lemmas -/

theorem filter_map_pres {α : Type} (l : List α) (f : α → α) (p : α → Bool)
    (hf : ∀ x, p (f x) = p x) : (l.map f).filter p = (l.filter p).map f := by
  induction l with
  | nil => rfl
  | cons x xs ih =>
    simp only [List.map_cons, List.filter_cons, hf x]
    cases hpx : p x <;> simp [ih]

theorem find?_map_pres {α : Type} (l : List α) (f : α → α) (p : α → Bool)
    (hf : ∀ x, p (f x) = p x) : (l.map f).find? p = (l.find? p).map f := by
  induction l with
  | nil => rfl
  | cons x xs ih =>
    cases hpx : p x
    · rw [List.map_cons, List.find?_cons_of_neg _ (by simp [hf x, hpx]),
        List.find?_cons_of_neg _ (by simp [hpx]), ih]
    · rw [List.map_cons, List.find?_cons_of_pos _ (by simp [hf x, hpx]),
        List.find?_cons_of_pos _ hpx]
      rfl

theorem find?_filter_of_imp {α : Type} (l : List α) (p q : α → Bool)
    (h : ∀ x, p x = true → q x = true) : (l.filter q).find? p = l.find? p := by
  induction l with
  | nil => rfl
  | cons x xs ih =>
    cases hq : q x
    · have hp : p x = false := by
        cases hpx : p x
        · rfl
        · exact absurd (h x hpx) (by simp [hq])
      rw [List.filter_cons, if_neg (by simp [hq]), ih,
        List.find?_cons_of_neg _ (by simp [hp])]
    · cases hp : p x
      · rw [List.filter_cons, if_pos (by simp [hq]),
          List.find?_cons_of_neg _ (by simp [hp]),
          List.find?_cons_of_neg _ (by simp [hp]), ih]
      · rw [List.filter_cons, if_pos (by simp [hq]),
          List.find?_cons_of_pos _ hp, List.find?_cons_of_pos _ hp]

/-! ## Store lemmas -/

namespace DB

variable (db : DB)

@[simp] theorem rooms_updateMemberPoint (mid : Nat) (p : Option Val) :
    (db.updateMemberPoint mid p).rooms = db.rooms := rfl

@[simp] theorem rooms_updateMemberConnection (mid : Nat) (sid : Option String) (c : Bool) :
    (db.updateMemberConnection mid sid c).rooms = db.rooms := rfl

@[simp] theorem rooms_updateMemberSocket (mid : Nat) (so si : Option String) (c : Bool) :
    (db.updateMemberSocket mid so si c).rooms = db.rooms := rfl

@[simp] theorem rooms_resetAllMemberPoints (rid : String) :
    (db.resetAllMemberPoints rid).rooms = db.rooms := rfl

@[simp] theorem members_setRoomRevealed (rid : String) (b : Bool) :
    (db.setRoomRevealed rid b).members = db.members := rfl

@[simp] theorem members_createRoom (row : RoomRow) :
    (db.createRoom row).members = db.members := rfl

@[simp] theorem getRoomRow_updateMemberPoint (mid : Nat) (p : Option Val) (rid : String) :
    (db.updateMemberPoint mid p).getRoomRow rid = db.getRoomRow rid := rfl

@[simp] theorem getRoomRow_updateMemberConnection (mid : Nat) (sid : Option String)
    (c : Bool) (rid : String) :
    (db.updateMemberConnection mid sid c).getRoomRow rid = db.getRoomRow rid := rfl

@[simp] theorem getRoomRow_updateMemberSocket (mid : Nat) (so si : Option String)
    (c : Bool) (rid : String) :
    (db.updateMemberSocket mid so si c).getRoomRow rid = db.getRoomRow rid := rfl

@[simp] theorem getRoomRow_resetAllMemberPoints (rid rid2 : String) :
    (db.resetAllMemberPoints rid).getRoomRow rid2 = db.getRoomRow rid2 := rfl

theorem getRoomRow_some_id {db : DB} {rid : String} {row : RoomRow}
    (h : db.getRoomRow rid = some row) : row.id = rid := by
  have := List.find?_some h
  simpa using this

theorem getRoomRow_setRoomRevealed_self (rid : String) (b : Bool) :
    (db.setRoomRevealed rid b).getRoomRow rid =
      (db.getRoomRow rid).map (fun r => { r with revealed := b }) := by
  unfold getRoomRow setRoomRevealed
  rw [find?_map_pres _ _ _ (fun x => by by_cases hx : x.id = rid <;> simp [hx])]
  cases hf : db.rooms.find? (fun r => r.id == rid)
  · rfl
  · rename_i row
    have hid : row.id = rid := by simpa using List.find?_some hf
    simp [hid]

theorem getRoomRow_addMember {db db2 : DB} {rid : String} {row : MemberRow}
    {sid so : Option String} {nm : String} {pt : Option Val} {c : Bool} {now : Nat}
    (h : db.addMember rid sid so nm pt c now = some (row, db2)) (rid2 : String) :
    db2.getRoomRow rid2 = db.getRoomRow rid2 := by
  unfold addMember at h
  split at h
  · exact absurd h (by simp)
  · simp only [Option.some.injEq, Prod.mk.injEq] at h
    rw [← h.2]
    rfl

theorem getRoomRow_deleteRoom_self (rid : String) :
    (db.deleteRoom rid).getRoomRow rid = none := by
  unfold getRoomRow deleteRoom
  simp only [List.find?_eq_none, List.mem_filter]
  intro x hx
  simp only [decide_not, Bool.not_eq_eq_eq_not, Bool.not_true, decide_eq_false_iff_not] at hx
  simp [hx.2]

theorem getRoomRow_deleteRoom_other (rid rid2 : String) (hne : rid2 ≠ rid) :
    (db.deleteRoom rid).getRoomRow rid2 = db.getRoomRow rid2 := by
  unfold getRoomRow deleteRoom
  exact find?_filter_of_imp _ _ _ (fun x hx => by
    have : x.id = rid2 := by simpa using hx
    simp [this, hne])

theorem membersOf_updateMemberPoint (mid : Nat) (p : Option Val) (rid : String) :
    (db.updateMemberPoint mid p).membersOf rid =
      (db.membersOf rid).map
        (fun m => if m.id = mid then { m with point := p.map valToDbString } else m) := by
  unfold membersOf updateMemberPoint
  exact filter_map_pres _ _ _ (fun x => by by_cases hx : x.id = mid <;> simp [hx])

theorem membersOf_updateMemberConnection (mid : Nat) (so : Option String) (c : Bool)
    (rid : String) :
    (db.updateMemberConnection mid so c).membersOf rid =
      (db.membersOf rid).map
        (fun m => if m.id = mid then { m with socketId := so, connected := c } else m) := by
  unfold membersOf updateMemberConnection
  exact filter_map_pres _ _ _ (fun x => by by_cases hx : x.id = mid <;> simp [hx])

theorem membersOf_updateMemberSocket (mid : Nat) (so si : Option String) (c : Bool)
    (rid : String) :
    (db.updateMemberSocket mid so si c).membersOf rid =
      (db.membersOf rid).map
        (fun m => if m.id = mid then
            { m with socketId := so, sessionId := si, connected := c }
          else m) := by
  unfold membersOf updateMemberSocket
  exact filter_map_pres _ _ _ (fun x => by by_cases hx : x.id = mid <;> simp [hx])

theorem membersOf_setRoomRevealed (rid rid2 : String) (b : Bool) :
    (db.setRoomRevealed rid b).membersOf rid2 = db.membersOf rid2 := rfl

theorem membersOf_resetAllMemberPoints_self (rid : String) :
    (db.resetAllMemberPoints rid).membersOf rid =
      (db.membersOf rid).map (fun m => { m with point := none }) := by
  unfold membersOf resetAllMemberPoints
  rw [filter_map_pres _ _ _ (fun x => by by_cases hx : x.roomId = rid <;> simp [hx])]
  refine List.map_congr_left (fun m hm => ?_)
  have : m.roomId = rid := by simpa using (List.mem_filter.mp hm).2
  simp [this]

theorem membersOf_addMember {db db2 : DB} {rid : String} {row : MemberRow}
    {sid so : Option String} {nm : String} {pt : Option Val} {c : Bool} {now : Nat}
    (h : db.addMember rid sid so nm pt c now = some (row, db2)) (rid2 : String) :
    db2.membersOf rid2 = db.membersOf rid2 ++ (if rid2 = rid then [row] else []) ∧
      row.roomId = rid := by
  unfold addMember at h
  split at h
  · exact absurd h (by simp)
  · simp only [Option.some.injEq, Prod.mk.injEq] at h
    obtain ⟨hrow, hdb⟩ := h
    constructor
    · rw [← hdb]
      unfold membersOf
      rw [List.filter_append _ _]
      congr 1
      rw [← hrow]
      by_cases hr : rid2 = rid
      · simp [hr]
      · simp [hr, Ne.symm hr]
    · rw [← hrow]

theorem membersOf_deleteRoom (rid rid2 : String) :
    (db.deleteRoom rid).membersOf rid2 =
      if rid2 = rid then [] else db.membersOf rid2 := by
  by_cases hr : rid2 = rid
  · subst hr
    rw [if_pos rfl]
    unfold membersOf deleteRoom
    rw [List.filter_eq_nil_iff]
    intro a ha
    have : a.roomId ≠ rid2 := by simpa using (List.mem_filter.mp ha).2
    simp [this]
  · rw [if_neg hr]
    unfold membersOf deleteRoom
    rw [List.filter_comm]
    refine List.filter_eq_self.mpr ?_
    intro a ha
    have : a.roomId = rid2 := by simpa using (List.mem_filter.mp ha).2
    simp [this, hr]

theorem parsedMembers_updateMemberPoint (db : DB) (mid : Nat) (p : Option Val)
    (rid : String) :
    (db.updateMemberPoint mid p).parsedMembers rid =
      (db.parsedMembers rid).map
        (fun m => if m.id = mid then { m with point := p.map coerceVote } else m) := by
  unfold parsedMembers
  rw [membersOf_updateMemberPoint, List.map_map, List.map_map]
  refine List.map_congr_left (fun m _ => ?_)
  cases p <;> by_cases hm : m.id = mid <;>
    simp [Function.comp, parseMemberRow, hm, coerceVote]

theorem parsedMembers_updateMemberConnection (db : DB) (mid : Nat) (so : Option String)
    (c : Bool) (rid : String) :
    (db.updateMemberConnection mid so c).parsedMembers rid =
      (db.parsedMembers rid).map
        (fun m => if m.id = mid then { m with socketId := so, connected := c } else m) := by
  unfold parsedMembers
  rw [membersOf_updateMemberConnection, List.map_map, List.map_map]
  refine List.map_congr_left (fun m _ => ?_)
  by_cases hm : m.id = mid <;> simp [Function.comp, parseMemberRow, hm]

theorem parsedMembers_updateMemberSocket (db : DB) (mid : Nat) (so si : Option String)
    (c : Bool) (rid : String) :
    (db.updateMemberSocket mid so si c).parsedMembers rid =
      (db.parsedMembers rid).map
        (fun m => if m.id = mid then
            { m with socketId := so, sessionId := si, connected := c }
          else m) := by
  unfold parsedMembers
  rw [membersOf_updateMemberSocket, List.map_map, List.map_map]
  refine List.map_congr_left (fun m _ => ?_)
  by_cases hm : m.id = mid <;> simp [Function.comp, parseMemberRow, hm]

theorem parsedMembers_resetAllMemberPoints_self (db : DB) (rid : String) :
    (db.resetAllMemberPoints rid).parsedMembers rid =
      (db.parsedMembers rid).map (fun m => { m with point := none }) := by
  unfold parsedMembers
  rw [membersOf_resetAllMemberPoints_self, List.map_map, List.map_map]
  refine List.map_congr_left (fun m _ => ?_)
  simp [Function.comp, parseMemberRow]

theorem parsedMembers_setRoomRevealed (db : DB) (rid rid2 : String) (b : Bool) :
    (db.setRoomRevealed rid b).parsedMembers rid2 = db.parsedMembers rid2 := rfl

theorem parsedMembers_addMember {db db2 : DB} {rid : String} {row : MemberRow}
    {sid so : Option String} {nm : String} {pt : Option Val} {c : Bool} {now : Nat}
    (h : db.addMember rid sid so nm pt c now = some (row, db2)) (rid2 : String) :
    db2.parsedMembers rid2 =
      db.parsedMembers rid2 ++ (if rid2 = rid then [parseMemberRow row] else []) := by
  unfold parsedMembers
  rw [(membersOf_addMember h rid2).1, List.map_append]
  by_cases hr : rid2 = rid <;> simp [hr]

theorem parsedMembers_deleteRoom (db : DB) (rid rid2 : String) :
    (db.deleteRoom rid).parsedMembers rid2 =
      if rid2 = rid then [] else db.parsedMembers rid2 := by
  unfold parsedMembers
  rw [membersOf_deleteRoom]
  by_cases hr : rid2 = rid <;> simp [hr]

end DB

/-! ## getRoom lemmas -/

theorem getRoom_some {db : DB} {rid : String} {room : Room}
    (h : db.getRoom rid = some room) :
    ∃ row, db.getRoomRow rid = some row ∧ row.id = rid ∧
      room = db.roomOfRow rid row := by
  unfold DB.getRoom at h
  rcases hrow : db.getRoomRow rid with _ | row
  · rw [hrow] at h
    exact absurd h (by simp)
  · rw [hrow] at h
    exact ⟨row, rfl, DB.getRoomRow_some_id hrow, (Option.some.inj h).symm⟩

theorem getRoom_of_row {db : DB} {rid : String} {row : RoomRow}
    (h : db.getRoomRow rid = some row) :
    db.getRoom rid = some (db.roomOfRow rid row) := by
  unfold DB.getRoom
  rw [h]
  rfl

theorem getRoom_id {db : DB} {rid : String} {room : Room}
    (h : db.getRoom rid = some room) : room.id = rid := by
  obtain ⟨row, _, hid, hr⟩ := getRoom_some h
  rw [hr]
  exact hid

theorem getRoom_members {db : DB} {rid : String} {room : Room}
    (h : db.getRoom rid = some room) : room.members = db.parsedMembers rid := by
  obtain ⟨row, _, _, hr⟩ := getRoom_some h
  rw [hr]
  rfl

theorem getRoom_row_revealed {db : DB} {rid : String} {room : Room}
    (h : db.getRoom rid = some room) :
    ∃ row, db.getRoomRow rid = some row ∧ row.revealed = room.revealed ∧
      row.adminToken = room.adminToken := by
  obtain ⟨row, hrow, _, hr⟩ := getRoom_some h
  exact ⟨row, hrow, by rw [hr]; rfl, by rw [hr]; rfl⟩

/-! ## checkRoomExpiration lemmas -/

theorem checkRoomExpiration_missing {s : ServerState} {roomId : String}
    (h : s.db.getRoom roomId = none) :
    checkRoomExpiration s roomId = (s, [], true) := by
  simp [checkRoomExpiration, h]

theorem checkRoomExpiration_live {s : ServerState} {roomId : String} {room : Room}
    (hr : s.db.getRoom roomId = some room)
    (hex : isRoomExpired s.now room = false) :
    checkRoomExpiration s roomId = (s, [], false) := by
  simp [checkRoomExpiration, hr, hex]

theorem checkRoomExpiration_expired {s : ServerState} {roomId : String} {room : Room}
    (hr : s.db.getRoom roomId = some room)
    (hex : isRoomExpired s.now room = true) :
    checkRoomExpiration s roomId =
      ({ s with db := s.db.deleteRoom roomId },
        [Event.roomExpired roomId "Room has expired after 10 minutes."], true) := by
  simp [checkRoomExpiration, hr, hex]

/-! ## Sanitization lemmas -/

theorem getSanitizedMembers_not_revealed {room : Room} (h : room.revealed = false) :
    ∀ sm ∈ getSanitizedMembers room, sm.point = none := by
  intro sm hsm
  unfold getSanitizedMembers at hsm
  obtain ⟨m, _, hm⟩ := List.mem_map.mp hsm
  rw [← hm, h]
  simp

theorem sanitized_point_some_revealed {room : Room} {p : Option Val}
    (hp : p ∈ (getSanitizedMembers room).map SanMember.point) (hs : p.isSome = true) :
    room.revealed = true := by
  cases hrev : room.revealed
  · obtain ⟨sm, hsm, hpe⟩ := List.mem_map.mp hp
    rw [getSanitizedMembers_not_revealed hrev sm hsm] at hpe
    rw [← hpe] at hs
    simp at hs
  · rfl

/-! ## Branch lemmas for the realtime handlers -/

theorem votesRevealHandler_missing {s : ServerState} {sock : Sock} {roomId : String}
    (h : s.db.getRoom roomId = none) :
    votesRevealHandler s sock roomId =
      (s, [Event.roomError sock.id "Room not found or has expired."]) := by
  simp [votesRevealHandler, checkRoomExpiration_missing h]

theorem votesRevealHandler_expired {s : ServerState} {sock : Sock} {roomId : String}
    {room : Room} (hr : s.db.getRoom roomId = some room)
    (hex : isRoomExpired s.now room = true) :
    votesRevealHandler s sock roomId =
      ({ s with db := s.db.deleteRoom roomId },
        [Event.roomExpired roomId "Room has expired after 10 minutes.",
          Event.roomError sock.id "Room not found or has expired."]) := by
  simp [votesRevealHandler, checkRoomExpiration_expired hr hex]

theorem votesRevealHandler_unauth {s : ServerState} {sock : Sock} {roomId : String}
    {room : Room} (hr : s.db.getRoom roomId = some room)
    (hex : isRoomExpired s.now room = false)
    (hna : isAuthorizedAdmin sock roomId room = false) :
    votesRevealHandler s sock roomId =
      (s, [Event.roomError sock.id "Only the admin can reveal votes."]) := by
  simp [votesRevealHandler, checkRoomExpiration_live hr hex, hr, hna]

theorem votesRevealHandler_live_auth {s : ServerState} {sock : Sock} {roomId : String}
    {room : Room}
    (hr : s.db.getRoom roomId = some room)
    (hex : isRoomExpired s.now room = false)
    (ha : isAuthorizedAdmin sock roomId room = true) :
    votesRevealHandler s sock roomId =
      ({ s with db := s.db.setRoomRevealed roomId true },
        [Event.votesRevealed roomId
          (room.members.map (fun m =>
            { name := m.name, point := m.point, hasVoted := m.point.isSome }))
          (computeAverage room.members)]) := by
  obtain ⟨row, hrow, hid, hroom⟩ := getRoom_some hr
  have hrow2 : (s.db.setRoomRevealed roomId true).getRoomRow roomId
      = some { row with revealed := true } := by
    rw [DB.getRoomRow_setRoomRevealed_self, hrow]
    rfl
  have hfresh := getRoom_of_row hrow2
  simp only [votesRevealHandler, checkRoomExpiration_live hr hex, ha, hr, hfresh]
  simp only [Bool.not_true, Bool.false_eq_true, if_false]
  have hmem : ((s.db.setRoomRevealed roomId true).roomOfRow roomId
      { row with revealed := true }).members = room.members := by
    rw [hroom]
    rfl
  rw [hmem, List.nil_append]

theorem votesResetHandler_missing {s : ServerState} {sock : Sock} {roomId : String}
    (h : s.db.getRoom roomId = none) :
    votesResetHandler s sock roomId =
      (s, [Event.roomError sock.id "Room not found or has expired."]) := by
  simp [votesResetHandler, checkRoomExpiration_missing h]

theorem votesResetHandler_expired {s : ServerState} {sock : Sock} {roomId : String}
    {room : Room} (hr : s.db.getRoom roomId = some room)
    (hex : isRoomExpired s.now room = true) :
    votesResetHandler s sock roomId =
      ({ s with db := s.db.deleteRoom roomId },
        [Event.roomExpired roomId "Room has expired after 10 minutes.",
          Event.roomError sock.id "Room not found or has expired."]) := by
  simp [votesResetHandler, checkRoomExpiration_expired hr hex]

theorem votesResetHandler_unauth {s : ServerState} {sock : Sock} {roomId : String}
    {room : Room} (hr : s.db.getRoom roomId = some room)
    (hex : isRoomExpired s.now room = false)
    (hna : isAuthorizedAdmin sock roomId room = false) :
    votesResetHandler s sock roomId =
      (s, [Event.roomError sock.id "Only the admin can reset votes."]) := by
  simp [votesResetHandler, checkRoomExpiration_live hr hex, hr, hna]

theorem votesResetHandler_live_auth {s : ServerState} {sock : Sock} {roomId : String}
    {room : Room}
    (hr : s.db.getRoom roomId = some room)
    (hex : isRoomExpired s.now room = false)
    (ha : isAuthorizedAdmin sock roomId room = true) :
    ∃ room2,
      votesResetHandler s sock roomId =
        ({ s with db := (s.db.resetAllMemberPoints roomId).setRoomRevealed roomId false },
          [Event.votesReset roomId (getSanitizedMembers room2)]) ∧
      ((s.db.resetAllMemberPoints roomId).setRoomRevealed roomId false).getRoom roomId
        = some room2 ∧
      room2.revealed = false ∧
      room2.members = room.members.map (fun m => { m with point := none }) ∧
      room2.createdAt = room.createdAt ∧
      room2.adminToken = room.adminToken := by
  obtain ⟨row, hrow, hid, hroom⟩ := getRoom_some hr
  have hrow2 : ((s.db.resetAllMemberPoints roomId).setRoomRevealed roomId false).getRoomRow
      roomId = some { row with revealed := false } := by
    rw [DB.getRoomRow_setRoomRevealed_self, DB.getRoomRow_resetAllMemberPoints, hrow]
    rfl
  have hfresh := getRoom_of_row hrow2
  refine ⟨_, ?_, hfresh, rfl, ?_, ?_, ?_⟩
  · simp only [votesResetHandler, checkRoomExpiration_live hr hex, ha, hr, hfresh]
    simp only [Bool.not_true, Bool.false_eq_true, if_false]
    rw [List.nil_append]
  · show ((s.db.resetAllMemberPoints roomId).setRoomRevealed roomId false).parsedMembers
        roomId = room.members.map (fun m => { m with point := none })
    rw [DB.parsedMembers_setRoomRevealed, DB.parsedMembers_resetAllMemberPoints_self, hroom]
    rfl
  · rw [hroom]
    rfl
  · rw [hroom]
    rfl

theorem roomEndHandler_missing {s : ServerState} {sock : Sock} {roomId : String}
    (h : s.db.getRoom roomId = none) :
    roomEndHandler s sock roomId =
      (s, [Event.roomError sock.id "Room not found or has already ended."]) := by
  simp [roomEndHandler, h]

theorem roomEndHandler_unauth {s : ServerState} {sock : Sock} {roomId : String}
    {room : Room} (hr : s.db.getRoom roomId = some room)
    (hna : isAuthorizedAdmin sock roomId room = false) :
    roomEndHandler s sock roomId =
      (s, [Event.roomError sock.id "Only the admin can end the session."]) := by
  simp [roomEndHandler, hr, hna]

theorem roomEndHandler_auth {s : ServerState} {sock : Sock} {roomId : String}
    {room : Room} (hr : s.db.getRoom roomId = some room)
    (ha : isAuthorizedAdmin sock roomId room = true) :
    roomEndHandler s sock roomId =
      ({ s with db := s.db.deleteRoom roomId },
        [Event.roomEnded roomId "The session has been ended by the admin."]) := by
  simp [roomEndHandler, hr, ha]

theorem voteSubmitHandler_missing {s : ServerState} {sock : Sock} {roomId : String}
    {p : Option Val} (h : s.db.getRoom roomId = none) :
    voteSubmitHandler s sock roomId p =
      (s, [Event.roomError sock.id "Room not found or has expired."]) := by
  simp [voteSubmitHandler, checkRoomExpiration_missing h]

theorem voteSubmitHandler_expired {s : ServerState} {sock : Sock} {roomId : String}
    {room : Room} {p : Option Val} (hr : s.db.getRoom roomId = some room)
    (hex : isRoomExpired s.now room = true) :
    voteSubmitHandler s sock roomId p =
      ({ s with db := s.db.deleteRoom roomId },
        [Event.roomExpired roomId "Room has expired after 10 minutes.",
          Event.roomError sock.id "Room not found or has expired."]) := by
  simp [voteSubmitHandler, checkRoomExpiration_expired hr hex]

theorem voteSubmitHandler_nomember {s : ServerState} {sock : Sock} {roomId : String}
    {room : Room} {p : Option Val} (hr : s.db.getRoom roomId = some room)
    (hex : isRoomExpired s.now room = false)
    (hm : s.db.getMemberBySocket roomId sock.id = none) :
    voteSubmitHandler s sock roomId p =
      (s, [Event.roomError sock.id "You are not a member of this room."]) := by
  simp [voteSubmitHandler, checkRoomExpiration_live hr hex, hm]

theorem voteSubmitHandler_member {s : ServerState} {sock : Sock} {roomId : String}
    {room : Room} {member : Member} {p : Option Val}
    (hr : s.db.getRoom roomId = some room)
    (hex : isRoomExpired s.now room = false)
    (hm : s.db.getMemberBySocket roomId sock.id = some member) :
    ∃ room2,
      voteSubmitHandler s sock roomId p =
        ({ s with db := s.db.updateMemberPoint member.id p },
          [Event.voteUpdated roomId (getSanitizedMembers room2) member.name]) ∧
      (s.db.updateMemberPoint member.id p).getRoom roomId = some room2 ∧
      room2.revealed = room.revealed := by
  obtain ⟨row, hrow, hid, hroom⟩ := getRoom_some hr
  have hrow2 : (s.db.updateMemberPoint member.id p).getRoomRow roomId = some row := by
    rw [DB.getRoomRow_updateMemberPoint, hrow]
  have hfresh := getRoom_of_row hrow2
  refine ⟨_, ?_, hfresh, by rw [hroom]; rfl⟩
  simp only [voteSubmitHandler, checkRoomExpiration_live hr hex, hm, hfresh]
  simp

/-- The pendingDisconnections key the join handler cancels (server.js line
358): roomId, a colon, and the session identifier (the string undefined
when the handshake carries no session, exactly as the template literal
interpolates it). -/
def joinPendingKey (sock : Sock) (roomId : String) : String :=
  roomId ++ ":" ++
    (match sock.session.map Session.id with
     | some x => x
     | none => "undefined")

theorem roomJoinHandler_missing {s : ServerState} {sock : Sock} {roomId : String}
    {name adminToken : Option String} (h : s.db.getRoom roomId = none) :
    roomJoinHandler s sock roomId name adminToken =
      (s, [Event.roomError sock.id "Room not found or has expired."]) := by
  simp [roomJoinHandler, checkRoomExpiration_missing h]

theorem roomJoinHandler_expired {s : ServerState} {sock : Sock} {roomId : String}
    {name adminToken : Option String} {room : Room}
    (hr : s.db.getRoom roomId = some room)
    (hex : isRoomExpired s.now room = true) :
    roomJoinHandler s sock roomId name adminToken =
      ({ s with db := s.db.deleteRoom roomId },
        [Event.roomExpired roomId "Room has expired after 10 minutes.",
          Event.roomError sock.id "Room not found or has expired."]) := by
  simp [roomJoinHandler, checkRoomExpiration_expired hr hex]

theorem roomJoinHandler_needsName {s : ServerState} {sock : Sock} {roomId : String}
    {name adminToken : Option String} {room : Room}
    (hr : s.db.getRoom roomId = some room)
    (hex : isRoomExpired s.now room = false)
    (hres : joinResolution sock roomId name adminToken = none) :
    roomJoinHandler s sock roomId name adminToken =
      (s, [Event.needsJoin sock.id roomId]) := by
  simp [roomJoinHandler, checkRoomExpiration_live hr hex, hr, hres]

theorem roomJoinHandler_full {s : ServerState} {sock : Sock} {roomId : String}
    {name adminToken : Option String} {room : Room} {nm : String} {tok : Option String}
    {b : Bool}
    (hr : s.db.getRoom roomId = some room)
    (hex : isRoomExpired s.now room = false)
    (hres : joinResolution sock roomId name adminToken = some (nm, tok, b))
    (hem : joinExistingMember s.db roomId sock nm = none)
    (hfull : MAX_ROOM_CAPACITY ≤ room.members.length) :
    roomJoinHandler s sock roomId name adminToken =
      ({ s with pending := s.pending.filter (fun p => p.1 ≠ joinPendingKey sock roomId) },
        [Event.roomError sock.id "Room is full. Maximum 10 users allowed."]) := by
  simp only [roomJoinHandler, checkRoomExpiration_live hr hex, hr, hres, joinPendingKey]
  simp [hem, hfull]

theorem roomJoinHandler_existing {s : ServerState} {sock : Sock} {roomId : String}
    {name adminToken : Option String} {room : Room} {nm : String} {tok : Option String}
    {b : Bool} {em : Member}
    (hr : s.db.getRoom roomId = some room)
    (hex : isRoomExpired s.now room = false)
    (hres : joinResolution sock roomId name adminToken = some (nm, tok, b))
    (hem : joinExistingMember s.db roomId sock nm = some em) :
    ∃ room2,
      roomJoinHandler s sock roomId name adminToken =
        ({ s with
            db := s.db.updateMemberSocket em.id (some sock.id) (sock.session.map Session.id)
              true
            pending := s.pending.filter (fun p => p.1 ≠ joinPendingKey sock roomId) },
          [Event.roomJoined sock.id (getSanitizedRoom room2) (tok == some room.adminToken) nm
              (em.connected || em.socketId.isSome) b
              (if room2.revealed then PrevVote.value em.point
               else PrevVote.voted em.point.isSome),
            if !(em.connected || em.socketId.isSome) || !(em.connected || em.socketId.isSome)
            then Event.memberJoined roomId nm (getSanitizedMembers room2)
            else Event.memberReconnected roomId nm (getSanitizedMembers room2)]) ∧
      (s.db.updateMemberSocket em.id (some sock.id) (sock.session.map Session.id)
          true).getRoom roomId = some room2 ∧
      room2.revealed = room.revealed ∧
      room2.id = roomId ∧
      room2.members = room.members.map
        (fun m => if m.id = em.id then
            { m with
              socketId := some sock.id
              sessionId := sock.session.map Session.id
              connected := true }
          else m) := by
  obtain ⟨row, hrow, hid, hroom⟩ := getRoom_some hr
  have hrow2 : (s.db.updateMemberSocket em.id (some sock.id)
      (sock.session.map Session.id) true).getRoomRow roomId = some row := by
    rw [DB.getRoomRow_updateMemberSocket, hrow]
  have hfresh := getRoom_of_row hrow2
  refine ⟨_, ?_, hfresh, by rw [hroom]; rfl, hid, ?_⟩
  · simp only [roomJoinHandler, checkRoomExpiration_live hr hex, hr, hres, joinPendingKey]
    simp only [hem, hfresh]
    simp
  · show (s.db.updateMemberSocket em.id (some sock.id) (sock.session.map Session.id)
        true).parsedMembers roomId = _
    rw [DB.parsedMembers_updateMemberSocket, hroom]
    rfl

theorem roomJoinHandler_new {s : ServerState} {sock : Sock} {roomId : String}
    {name adminToken : Option String} {room : Room} {nm : String} {tok : Option String}
    {b : Bool} {row2 : MemberRow} {db2 : DB}
    (hr : s.db.getRoom roomId = some room)
    (hex : isRoomExpired s.now room = false)
    (hres : joinResolution sock roomId name adminToken = some (nm, tok, b))
    (hem : joinExistingMember s.db roomId sock nm = none)
    (hcap : room.members.length < MAX_ROOM_CAPACITY)
    (hadd : s.db.addMember roomId (sock.session.map Session.id) (some sock.id) nm none true
      (s.now / 1000) = some (row2, db2)) :
    ∃ room2 sevs,
      roomJoinHandler s sock roomId name adminToken =
        ({ s with
            db := db2
            pending := s.pending.filter (fun p => p.1 ≠ joinPendingKey sock roomId) },
          sevs ++
          [Event.roomJoined sock.id (getSanitizedRoom room2) (tok == some room.adminToken) nm
              false b
              (if room2.revealed then PrevVote.value (parseMemberRow row2).point
               else PrevVote.voted (parseMemberRow row2).point.isSome),
            Event.memberJoined roomId nm (getSanitizedMembers room2)]) ∧
      db2.getRoom roomId = some room2 ∧
      room2.revealed = room.revealed ∧
      room2.id = roomId ∧
      room2.members = room.members ++ [parseMemberRow row2] ∧
      (∀ e ∈ sevs, ∃ sid us, e = Event.sessionWrite sid roomId us ∧
        us.isAdmin = (us.adminToken == some room.adminToken) ∧ us.name = nm) := by
  obtain ⟨row, hrow, hid, hroom⟩ := getRoom_some hr
  have hrow2 : db2.getRoomRow roomId = some row := by
    rw [DB.getRoomRow_addMember hadd, hrow]
  have hfresh := getRoom_of_row hrow2
  have hmem2 : db2.parsedMembers roomId = room.members ++ [parseMemberRow row2] := by
    rw [DB.parsedMembers_addMember hadd, hroom]
    simp [DB.roomOfRow]
  refine ⟨db2.roomOfRow roomId row,
    (match sock.session, sock.session.bind (fun sess => sess.lookup roomId) with
      | some sess, none =>
        [Event.sessionWrite sess.id roomId
          { name := nm, isAdmin := tok == some room.adminToken,
            adminToken := if tok == some room.adminToken then tok else none,
            joinedAt := s.now }]
      | _, _ => []), ?_, hfresh, by rw [hroom]; rfl, hid, hmem2, ?_⟩
  · simp only [roomJoinHandler, checkRoomExpiration_live hr hex, hr, hres, joinPendingKey]
    simp only [hem, hadd, hfresh]
    have hcap2 : ¬ (MAX_ROOM_CAPACITY ≤ room.members.length) := by omega
    simp [hcap2]
  · intro e he
    rcases hs : sock.session with _ | sess <;> rw [hs] at he
    · simp at he
    · simp only [Option.bind] at he
      rcases hl : sess.lookup roomId with _ | us
      · rw [hl] at he
        simp only [List.mem_singleton] at he
        subst he
        refine ⟨sess.id, _, rfl, ?_, rfl⟩
        by_cases ht : (tok == some room.adminToken) = true <;> simp [ht]
      · rw [hl] at he
        simp at he

theorem getRoom_none_of_row {db : DB} {rid : String} (h : db.getRoomRow rid = none) :
    db.getRoom rid = none := by
  unfold DB.getRoom
  rw [h]
  rfl

theorem isAuthorizedAdmin_congr_token {sock : Sock} {roomId : String} {r1 r2 : Room}
    (h : r1.adminToken = r2.adminToken) :
    isAuthorizedAdmin sock roomId r1 = isAuthorizedAdmin sock roomId r2 := by
  unfold isAuthorizedAdmin
  rw [h]

theorem isRoomExpired_congr_createdAt {now : Nat} {r1 r2 : Room}
    (h : r1.createdAt = r2.createdAt) :
    isRoomExpired now r1 = isRoomExpired now r2 := by
  unfold isRoomExpired
  rw [h]

theorem disconnectHandler_db (s : ServerState) (a : SockAttrs) :
    (disconnectHandler s (some a)).1.db =
      s.db.updateMemberConnection a.memberId none false ∧
    (disconnectHandler s (some a)).1.now = s.now := by
  unfold disconnectHandler
  cases h : (s.db.updateMemberConnection a.memberId none false).getRoom a.roomId
  · simp [h]
  · simp only [h]
    split <;> simp

/-- Applying the reset pair of store writes twice equals applying it once. -/
theorem reset_db_idem (db : DB) (rid : String) :
    (((db.resetAllMemberPoints rid).setRoomRevealed rid false).resetAllMemberPoints
        rid).setRoomRevealed rid false =
      (db.resetAllMemberPoints rid).setRoomRevealed rid false := by
  simp only [DB.resetAllMemberPoints, DB.setRoomRevealed, List.map_map]
  congr 1
  · refine List.map_congr_left (fun r _ => ?_)
    by_cases hr : r.id = rid <;> simp [Function.comp, hr]
  · refine List.map_congr_left (fun m _ => ?_)
    by_cases hm : m.roomId = rid <;> simp [Function.comp, hm]

/-! ## Concrete fixtures used by witnesses and counterexamples -/

def roomRow1 : RoomRow :=
  { id := "r1", taskTitle := "task", taskDescription := none, adminToken := "tok",
    adminName := "alice", revealed := false, createdAt := 0 }

def memberRowA : MemberRow :=
  { id := 0, roomId := "r1", sessionId := some "sessA", socketId := some "sockA",
    name := "alice", point := some "5", connected := true, joinedAt := 0 }

def memberRowB : MemberRow :=
  { id := 1, roomId := "r1", sessionId := some "sessB", socketId := some "sockB",
    name := "bob", point := some "8", connected := true, joinedAt := 0 }

def memberRowC : MemberRow :=
  { id := 2, roomId := "r1", sessionId := some "sessC", socketId := some "sockC",
    name := "carol", point := none, connected := true, joinedAt := 0 }

def db1 : DB :=
  { rooms := [roomRow1], members := [memberRowA, memberRowB, memberRowC], nextId := 3 }

def state1 : ServerState := { db := db1, pending := [], now := 1000 }

def adminUserSession : UserSession :=
  { name := "alice", isAdmin := true, adminToken := some "tok", joinedAt := 0 }

def adminSock : Sock :=
  { id := "sockA", session := some { id := "sessA", rooms := [("r1", adminUserSession)] } }

def memberA : Member :=
  { id := 0, sessionId := some "sessA", socketId := some "sockA", name := "alice",
    point := some (Val.num 5), connected := true, joinedAt := 0 }

def memberB : Member :=
  { id := 1, sessionId := some "sessB", socketId := some "sockB", name := "bob",
    point := some (Val.num 8), connected := true, joinedAt := 0 }

def memberC : Member :=
  { id := 2, sessionId := some "sessC", socketId := some "sockC", name := "carol",
    point := none, connected := true, joinedAt := 0 }

def room1 : Room :=
  { id := "r1", taskTitle := "task", taskDescription := none, adminToken := "tok",
    adminName := "alice", revealed := false, createdAt := 0,
    members := [memberA, memberB, memberC] }

/-! ## Claims -/

/-- C10: when a room's 30-second grace-period deletion timer fires, the
room is deleted only if the connected-member count is still zero at that
moment; if any member has reconnected by then, the callback deletes
nothing (neither the room row nor any member rows, and no event is
emitted), regardless of whether the timer itself was ever cancelled. -/
theorem claim_C10_timer_fire_guard (s : ServerState) (key roomId : String) :
    (s.db.getConnectedMemberCount roomId ≠ 0 →
      (roomDeletionTimerFire s key roomId).1.db = s.db ∧
      (roomDeletionTimerFire s key roomId).2 = []) ∧
    (s.db.getConnectedMemberCount roomId = 0 →
      (roomDeletionTimerFire s key roomId).1.db.getRoomRow roomId = none ∧
      (roomDeletionTimerFire s key roomId).1.db.membersOf roomId = []) := by
  constructor
  · intro h
    simp [roomDeletionTimerFire, h]
  · intro h
    simp only [roomDeletionTimerFire, if_pos h]
    exact ⟨DB.getRoomRow_deleteRoom_self _ _, by rw [DB.membersOf_deleteRoom]; simp⟩

theorem claim_C10_timer_fire_guard_witness :
    state1.db.getConnectedMemberCount "r1" ≠ 0 ∧
      (roomDeletionTimerFire state1 "room:r1" "r1").1.db = state1.db :=
  ⟨by decide, ((claim_C10_timer_fire_guard state1 "room:r1" "r1").1 (by decide)).1⟩

/-- C6: on an authorized reveal of a live room, the single broadcast
carries every member's raw point plus the arithmetic mean of the
numeric-typed votes rounded to one decimal place; null votes and
non-numeric votes are excluded from the average; the average is null
exactly when there is no numeric vote; and on the spec's scenario (votes
5 and 8 plus a non-voter) the reported average is 6.5. -/
theorem claim_C6_reveal_average :
    (∀ (s : ServerState) (sock : Sock) (roomId : String) (room : Room),
      s.db.getRoom roomId = some room →
      isRoomExpired s.now room = false →
      isAuthorizedAdmin sock roomId room = true →
      votesRevealHandler s sock roomId =
        ({ s with db := s.db.setRoomRevealed roomId true },
          [Event.votesRevealed roomId
            (room.members.map (fun m =>
              { name := m.name, point := m.point, hasVoted := m.point.isSome }))
            (computeAverage room.members)])) ∧
    (∀ ms : List Member, computeAverage ms = none ↔ numericVotes ms = []) ∧
    (∀ (m : Member) (ms : List Member), m.point = none →
      numericVotes (m :: ms) = numericVotes ms) ∧
    (∀ (m : Member) (ms : List Member) (t : String), m.point = some (Val.str t) →
      numericVotes (m :: ms) = numericVotes ms) ∧
    (∀ ms : List Member, numericVotes ms ≠ [] →
      computeAverage ms =
        some (toFixed1 (((numericVotes ms).sum : ℚ) / ((numericVotes ms).length : ℚ)))) ∧
    computeAverage room1.members = some (13 / 2 : ℚ) ∧ (13 / 2 : ℚ) = 6.5 := by
  refine ⟨fun s sock roomId room hr hex ha => votesRevealHandler_live_auth hr hex ha,
    ?_, ?_, ?_, ?_, ?_, by norm_num⟩
  · intro ms
    unfold computeAverage
    cases h : numericVotes ms <;> simp [h]
  · intro m ms h
    simp [numericVotes, h]
  · intro m ms t h
    simp [numericVotes, h]
  · intro ms h
    unfold computeAverage
    have hl : 0 < (numericVotes ms).length := by
      cases hn : numericVotes ms
      · exact absurd hn h
      · simp
    simp [hl]
  · show computeAverage [memberA, memberB, memberC] = some (13 / 2 : ℚ)
    have h1 : numericVotes [memberA, memberB, memberC] = [5, 8] := by decide
    unfold computeAverage
    rw [h1]
    norm_num [toFixed1]

theorem claim_C6_reveal_average_witness :
    votesRevealHandler state1 adminSock "r1" =
      ({ state1 with db := state1.db.setRoomRevealed "r1" true },
        [Event.votesRevealed "r1"
          (room1.members.map (fun m =>
            { name := m.name, point := m.point, hasVoted := m.point.isSome }))
          (computeAverage room1.members)]) :=
  claim_C6_reveal_average.1 state1 adminSock "r1" room1 (by decide) (by decide) (by decide)

/-- C8: resetting votes twice in a row leaves exactly the server state one
reset leaves (in every branch of the handler, authorization included),
and a successful reset leaves the room unrevealed with every member's
point null. -/
theorem claim_C8_reset_idempotent :
    (∀ (s : ServerState) (sock : Sock) (roomId : String),
      (votesResetHandler (votesResetHandler s sock roomId).1 sock roomId).1 =
        (votesResetHandler s sock roomId).1) ∧
    (∀ (s : ServerState) (sock : Sock) (roomId : String) (room : Room),
      s.db.getRoom roomId = some room →
      isRoomExpired s.now room = false →
      isAuthorizedAdmin sock roomId room = true →
      ∃ room2, (votesResetHandler s sock roomId).1.db.getRoom roomId = some room2 ∧
        room2.revealed = false ∧ ∀ m ∈ room2.members, m.point = none) := by
  constructor
  · intro s sock roomId
    rcases hr : s.db.getRoom roomId with _ | room
    · simp only [votesResetHandler_missing hr]
    · by_cases hex : isRoomExpired s.now room = true
      · have hr2 : ({ s with db := s.db.deleteRoom roomId } : ServerState).db.getRoom
            roomId = none :=
          getRoom_none_of_row (DB.getRoomRow_deleteRoom_self _ _)
        simp only [votesResetHandler_expired hr hex, votesResetHandler_missing hr2]
      · rw [Bool.not_eq_true] at hex
        by_cases ha : isAuthorizedAdmin sock roomId room = true
        · obtain ⟨room2, heq, hfresh2, hrev2, hmems2, hcr2, htok2⟩ :=
            votesResetHandler_live_auth hr hex ha
          have hr2 : ({ s with
              db := (s.db.resetAllMemberPoints roomId).setRoomRevealed roomId false } :
              ServerState).db.getRoom roomId = some room2 := hfresh2
          have hex2 : isRoomExpired s.now room2 = false := by
            rw [isRoomExpired_congr_createdAt hcr2]
            exact hex
          have ha2 : isAuthorizedAdmin sock roomId room2 = true := by
            rw [isAuthorizedAdmin_congr_token htok2]
            exact ha
          obtain ⟨room3, heq2, _, _, _, _, _⟩ := votesResetHandler_live_auth hr2 hex2 ha2
          simp only [heq, heq2, reset_db_idem]
        · rw [Bool.not_eq_true] at ha
          simp only [votesResetHandler_unauth hr hex ha]
  · intro s sock roomId room hr hex ha
    obtain ⟨room2, heq, hfresh2, hrev2, hmems2, _, _⟩ :=
      votesResetHandler_live_auth hr hex ha
    refine ⟨room2, by rw [heq]; exact hfresh2, hrev2, ?_⟩
    intro m hm
    rw [hmems2] at hm
    obtain ⟨m0, _, hme⟩ := List.mem_map.mp hm
    rw [← hme]

theorem httpViewRoom_expired {s : ServerState} {roomId : String} {room : Room}
    {sess : Option Session} (hr : s.db.getRoom roomId = some room)
    (hex : isRoomExpired s.now room = true) :
    httpViewRoom s roomId sess =
      ({ s with db := s.db.deleteRoom roomId }, [], HttpResult.redirect "/play") := by
  simp [httpViewRoom, hr, hex]

theorem httpJoinRoom_expired {s : ServerState} {roomId : String} {room : Room}
    {name : Option String} {sess : Session} (hr : s.db.getRoom roomId = some room)
    (hex : isRoomExpired s.now room = true) :
    httpJoinRoom s roomId name sess =
      ({ s with db := s.db.deleteRoom roomId }, [], HttpResult.redirect "/play") := by
  simp [httpJoinRoom, hr, hex]

theorem roomJoinHandler_dupName {s : ServerState} {sock : Sock} {roomId : String}
    {name adminToken : Option String} {room : Room} {nm : String} {tok : Option String}
    {b : Bool}
    (hr : s.db.getRoom roomId = some room)
    (hex : isRoomExpired s.now room = false)
    (hres : joinResolution sock roomId name adminToken = some (nm, tok, b))
    (hem : joinExistingMember s.db roomId sock nm = none)
    (hcap : room.members.length < MAX_ROOM_CAPACITY)
    (hadd : s.db.addMember roomId (sock.session.map Session.id) (some sock.id) nm none true
      (s.now / 1000) = none) :
    roomJoinHandler s sock roomId name adminToken =
      ({ s with pending := s.pending.filter (fun p => p.1 ≠ joinPendingKey sock roomId) },
        [Event.roomError sock.id "This name is already taken in the room."]) := by
  simp only [roomJoinHandler, checkRoomExpiration_live hr hex, hr, hres, joinPendingKey]
  simp only [hem, hadd]
  have hcap2 : ¬ (MAX_ROOM_CAPACITY ≤ room.members.length) := by omega
  simp [hcap2]

def plainSock : Sock := { id := "sockP", session := none }

def expiredState : ServerState := { db := db1, pending := [], now := 1000000000 }

def tokenOnlyUserSession : UserSession :=
  { name := "tina", isAdmin := false, adminToken := some "tok", joinedAt := 0 }

def tokenOnlySock : Sock :=
  { id := "sockT",
    session := some { id := "sessT", rooms := [("r1", tokenOnlyUserSession)] } }

/-- C3 as stated is false: a session whose stored adminToken equals the
room's adminToken exactly, but whose cached isAdmin boolean is false, is
rejected by votes:reveal with an unauthorized error — so authorization is
not equivalent to the token comparison, and the cached boolean is a
deciding factor. -/
theorem claim_C3_admin_token_counterexample :
    tokenOnlyUserSession.adminToken = some room1.adminToken ∧
    isAuthorizedAdmin tokenOnlySock "r1" room1 = false ∧
    votesRevealHandler state1 tokenOnlySock "r1" =
      (state1, [Event.roomError "sockT" "Only the admin can reveal votes."]) := by
  refine ⟨by decide, by decide, ?_⟩
  exact @votesRevealHandler_unauth state1 tokenOnlySock "r1" room1 (by decide) (by decide)
    (by decide)

/-- C3 amended: a privileged operation (reveal, reset, end) succeeds iff
the session record for the room has its cached isAdmin flag true AND its
stored adminToken equal to the room's stored adminToken; the token
comparison is re-evaluated against the room's stored token on every call,
any failure leaves the state unchanged with only an unauthorized error,
and every session record the code itself writes keeps isAdmin equal to
the token comparison, so that for such sessions authorization is
equivalent to the exact token match. -/
theorem claim_C3_admin_auth_amended :
    (∀ (sock : Sock) (roomId : String) (room : Room) (sess : Session) (us : UserSession),
      sock.session = some sess → sess.lookup roomId = some us →
      us.isAdmin = (us.adminToken == some room.adminToken) →
      (isAuthorizedAdmin sock roomId room = true ↔
        us.adminToken = some room.adminToken)) ∧
    (∀ (s : ServerState) (sock : Sock) (roomId : String) (room : Room),
      s.db.getRoom roomId = some room →
      isRoomExpired s.now room = false →
      isAuthorizedAdmin sock roomId room = false →
      votesRevealHandler s sock roomId =
        (s, [Event.roomError sock.id "Only the admin can reveal votes."]) ∧
      votesResetHandler s sock roomId =
        (s, [Event.roomError sock.id "Only the admin can reset votes."])) ∧
    (∀ (s : ServerState) (sock : Sock) (roomId : String) (room : Room),
      s.db.getRoom roomId = some room →
      isAuthorizedAdmin sock roomId room = false →
      roomEndHandler s sock roomId =
        (s, [Event.roomError sock.id "Only the admin can end the session."])) ∧
    (∀ (s : ServerState) (sock : Sock) (roomId : String) (room : Room),
      s.db.getRoom roomId = some room →
      isRoomExpired s.now room = false →
      isAuthorizedAdmin sock roomId room = true →
      (votesRevealHandler s sock roomId).1 =
        { s with db := s.db.setRoomRevealed roomId true }) ∧
    (∀ (s : ServerState) (roomId : String) (name : Option String) (sess : Session),
      ∀ e ∈ (httpJoinRoom s roomId name sess).2.1,
      ∃ sid rid us, e = Event.sessionWrite sid rid us ∧
        us.isAdmin = false ∧ us.adminToken = none) ∧
    (∀ (s : ServerState) (newRoomId adminTok taskTitle : String)
        (taskDescription : Option String) (adminName : String) (sess : Session),
      (httpRegister s newRoomId adminTok taskTitle taskDescription adminName
          sess).2.1 =
        [Event.sessionWrite sess.id newRoomId
          { name := adminName, isAdmin := true, adminToken := some adminTok,
            joinedAt := s.now }] ∧
      (httpRegister s newRoomId adminTok taskTitle taskDescription adminName sess).1.db.rooms
        = s.db.rooms ++
          [{ id := newRoomId, taskTitle := taskTitle, taskDescription := taskDescription,
             adminToken := adminTok, adminName := adminName, revealed := false,
             createdAt := s.now / 1000 }]) ∧
    (∀ (s : ServerState) (sock : Sock) (roomId : String) (name adminToken : Option String)
        (room : Room),
      s.db.getRoom roomId = some room →
      ∀ e ∈ (roomJoinHandler s sock roomId name adminToken).2,
      ∀ sid rid us, e = Event.sessionWrite sid rid us →
        rid = roomId ∧ us.isAdmin = (us.adminToken == some room.adminToken)) := by
  refine ⟨?_, ?_, ?_, ?_, ?_, ?_, ?_⟩
  · intro sock roomId room sess us hs hl hinv
    unfold isAuthorizedAdmin
    simp only [hs, hl, hinv, Bool.and_self, beq_iff_eq]
  · intro s sock roomId room hr hex hna
    exact ⟨votesRevealHandler_unauth hr hex hna, votesResetHandler_unauth hr hex hna⟩
  · intro s sock roomId room hr hna
    exact roomEndHandler_unauth hr hna
  · intro s sock roomId room hr hex ha
    rw [votesRevealHandler_live_auth hr hex ha]
  · intro s roomId name sess e he
    unfold httpJoinRoom at he
    rcases hr : s.db.getRoom roomId with _ | room <;> simp only [hr] at he
    · simp at he
    · split at he
      · simp at he
      · rcases name with _ | n
        · simp at he
        · split at he
          · simp at he
          · split at he
            · simp at he
            · split at he
              · simp at he
              · split at he
                · simp at he
                · split at he
                  · simp at he
                  · simp only [List.mem_singleton] at he
                    exact ⟨sess.id, roomId, _, he, rfl, rfl⟩
  · intro s newRoomId adminTok taskTitle taskDescription adminName sess
    exact ⟨rfl, rfl⟩
  · intro s sock roomId name adminToken room hr e he sid rid us hse
    by_cases hex : isRoomExpired s.now room = true
    · rw [roomJoinHandler_expired hr hex, hse] at he
      simp at he
    · rw [Bool.not_eq_true] at hex
      rcases hres : joinResolution sock roomId name adminToken with _ | ⟨nm, tok, b⟩
      · rw [roomJoinHandler_needsName hr hex hres] at he
        rw [hse] at he
        simp at he
      · rcases hem : joinExistingMember s.db roomId sock nm with _ | em
        · by_cases hcap : MAX_ROOM_CAPACITY ≤ room.members.length
          · rw [roomJoinHandler_full hr hex hres hem hcap, hse] at he
            simp at he
          · have hcap2 : room.members.length < MAX_ROOM_CAPACITY := by omega
            rcases hadd : s.db.addMember roomId (sock.session.map Session.id)
                (some sock.id) nm none true (s.now / 1000) with _ | ⟨row2, db2⟩
            · rw [roomJoinHandler_dupName hr hex hres hem hcap2 hadd, hse] at he
              simp at he
            · obtain ⟨room2, sevs, heq, _, _, _, _, hsevs⟩ :=
                roomJoinHandler_new hr hex hres hem hcap2 hadd
              rw [heq] at he
              rw [List.mem_append] at he
              rcases he with he | he
              · obtain ⟨sid2, us2, hes, hinv, _⟩ := hsevs e he
                rw [hse] at hes
                have h1 : sid = sid2 ∧ rid = roomId ∧ us = us2 := by
                  have := Event.sessionWrite.inj hes
                  exact ⟨this.1, this.2.1, this.2.2⟩
                refine ⟨h1.2.1, ?_⟩
                rw [h1.2.2]
                exact hinv
              · rw [hse] at he
                simp at he
        · obtain ⟨room2, heq, _, _, _, _⟩ := roomJoinHandler_existing hr hex hres hem
          rw [heq, hse] at he
          simp only [List.mem_cons, List.mem_singleton, List.not_mem_nil, or_false] at he
          rcases he with he | he
          · simp at he
          · split at he <;> simp at he

theorem claim_C3_admin_auth_amended_witness :
    (isAuthorizedAdmin adminSock "r1" room1 = true ↔
      adminUserSession.adminToken = some room1.adminToken) ∧
    votesRevealHandler state1 tokenOnlySock "r1" =
      (state1, [Event.roomError "sockT" "Only the admin can reveal votes."]) ∧
    roomEndHandler state1 plainSock "r1" =
      (state1, [Event.roomError "sockP" "Only the admin can end the session."]) ∧
    (votesRevealHandler state1 adminSock "r1").1 =
      { state1 with db := state1.db.setRoomRevealed "r1" true } :=
  ⟨claim_C3_admin_auth_amended.1 adminSock "r1" room1 _ adminUserSession rfl (by decide)
      (by decide),
    (claim_C3_admin_auth_amended.2.1 state1 tokenOnlySock "r1" room1 (by decide) (by decide)
      (by decide)).1,
    claim_C3_admin_auth_amended.2.2.1 state1 plainSock "r1" room1 (by decide) (by decide),
    claim_C3_admin_auth_amended.2.2.2.1 state1 adminSock "r1" room1 (by decide) (by decide)
      (by decide)⟩

namespace DB

/-- The member count of a room: the quantity the capacity checks bound. -/
def roomCount (db : DB) (rid : String) : Nat := (db.membersOf rid).length

theorem roomCount_updateMemberPoint (db : DB) (mid : Nat) (p : Option Val) (rid : String) :
    (db.updateMemberPoint mid p).roomCount rid = db.roomCount rid := by
  unfold roomCount
  rw [membersOf_updateMemberPoint, List.length_map]

theorem roomCount_updateMemberConnection (db : DB) (mid : Nat) (so : Option String)
    (c : Bool) (rid : String) :
    (db.updateMemberConnection mid so c).roomCount rid = db.roomCount rid := by
  unfold roomCount
  rw [membersOf_updateMemberConnection, List.length_map]

theorem roomCount_updateMemberSocket (db : DB) (mid : Nat) (so si : Option String)
    (c : Bool) (rid : String) :
    (db.updateMemberSocket mid so si c).roomCount rid = db.roomCount rid := by
  unfold roomCount
  rw [membersOf_updateMemberSocket, List.length_map]

theorem roomCount_resetAllMemberPoints (db : DB) (rid rid2 : String) :
    (db.resetAllMemberPoints rid).roomCount rid2 = db.roomCount rid2 := by
  unfold roomCount membersOf resetAllMemberPoints
  rw [filter_map_pres _ _ _ (fun x => by by_cases hx : x.roomId = rid <;> simp [hx]),
    List.length_map]

theorem roomCount_setRoomRevealed (db : DB) (rid : String) (b : Bool) (rid2 : String) :
    (db.setRoomRevealed rid b).roomCount rid2 = db.roomCount rid2 := rfl

theorem roomCount_createRoom (db : DB) (row : RoomRow) (rid : String) :
    (db.createRoom row).roomCount rid = db.roomCount rid := rfl

theorem roomCount_deleteRoom_le (db : DB) (rid rid2 : String) :
    (db.deleteRoom rid).roomCount rid2 ≤ db.roomCount rid2 := by
  unfold roomCount
  rw [membersOf_deleteRoom]
  split
  · simp
  · exact le_refl _

theorem roomCount_addMember {db db2 : DB} {rid : String} {row : MemberRow}
    {sid so : Option String} {nm : String} {pt : Option Val} {c : Bool} {now : Nat}
    (h : db.addMember rid sid so nm pt c now = some (row, db2)) (rid2 : String) :
    db2.roomCount rid2 = db.roomCount rid2 + (if rid2 = rid then 1 else 0) := by
  unfold roomCount
  rw [(membersOf_addMember h rid2).1, List.length_append]
  split <;> simp

theorem roomCount_getRoom {db : DB} {rid : String} {room : Room}
    (h : db.getRoom rid = some room) : room.members.length = db.roomCount rid := by
  rw [getRoom_members h]
  unfold parsedMembers roomCount
  rw [List.length_map]

end DB

/-- Every way the room:join handler can change the store: unchanged, an
expiry deletion, an in-place reconnect update, or a capacity-guarded
insert. -/
theorem roomJoinHandler_db_cases (s : ServerState) (sock : Sock) (roomId : String)
    (name adminToken : Option String) :
    (roomJoinHandler s sock roomId name adminToken).1.db = s.db ∨
    (roomJoinHandler s sock roomId name adminToken).1.db = s.db.deleteRoom roomId ∨
    (∃ mid si, (roomJoinHandler s sock roomId name adminToken).1.db =
      s.db.updateMemberSocket mid (some sock.id) si true) ∨
    (∃ nm row db2,
      s.db.addMember roomId (sock.session.map Session.id) (some sock.id) nm none true
        (s.now / 1000) = some (row, db2) ∧
      (roomJoinHandler s sock roomId name adminToken).1.db = db2 ∧
      s.db.roomCount roomId < MAX_ROOM_CAPACITY) := by
  rcases hr : s.db.getRoom roomId with _ | room
  · left
    rw [roomJoinHandler_missing hr]
  · by_cases hex : isRoomExpired s.now room = true
    · right; left
      rw [roomJoinHandler_expired hr hex]
    · rw [Bool.not_eq_true] at hex
      rcases hres : joinResolution sock roomId name adminToken with _ | ⟨nm, tok, b⟩
      · left
        rw [roomJoinHandler_needsName hr hex hres]
      · rcases hem : joinExistingMember s.db roomId sock nm with _ | em
        · by_cases hcap : MAX_ROOM_CAPACITY ≤ room.members.length
          · left
            rw [roomJoinHandler_full hr hex hres hem hcap]
          · have hcap2 : room.members.length < MAX_ROOM_CAPACITY := by omega
            rcases hadd : s.db.addMember roomId (sock.session.map Session.id)
                (some sock.id) nm none true (s.now / 1000) with _ | ⟨row2, db2⟩
            · left
              rw [roomJoinHandler_dupName hr hex hres hem hcap2 hadd]
            · right; right; right
              obtain ⟨room2, sevs, heq, _, _, _, _, _⟩ :=
                roomJoinHandler_new hr hex hres hem hcap2 hadd
              refine ⟨nm, row2, db2, hadd, by rw [heq], ?_⟩
              rw [← DB.roomCount_getRoom hr]
              exact hcap2
        · right; right; left
          obtain ⟨room2, heq, _, _, _⟩ := roomJoinHandler_existing hr hex hres hem
          exact ⟨em.id, sock.session.map Session.id, by rw [heq]⟩

/-- Every way POST /play/:id/join can change the store. -/
theorem httpJoinRoom_db_cases (s : ServerState) (roomId : String) (name : Option String)
    (sess : Session) :
    (httpJoinRoom s roomId name sess).1.db = s.db ∨
    (httpJoinRoom s roomId name sess).1.db = s.db.deleteRoom roomId ∨
    (∃ nm row db2,
      s.db.addMember roomId (some sess.id) none nm none false (s.now / 1000) =
        some (row, db2) ∧
      (httpJoinRoom s roomId name sess).1.db = db2 ∧
      s.db.roomCount roomId < MAX_ROOM_CAPACITY) := by
  rcases hr : s.db.getRoom roomId with _ | room
  · left
    simp [httpJoinRoom, hr]
  · by_cases hex : isRoomExpired s.now room = true
    · right; left
      simp [httpJoinRoom, hr, hex]
    · rw [Bool.not_eq_true] at hex
      rcases name with _ | n
      · left
        simp [httpJoinRoom, hr, hex]
      · by_cases hnm : jsTrim n = ""
        · left
          simp [httpJoinRoom, hr, hex, hnm]
        · by_cases hdup : (s.db.getMemberByName roomId (jsTrim n)).isSome
          · left
            simp [httpJoinRoom, hr, hex, hnm, hdup]
          · by_cases hfull : MAX_ROOM_CAPACITY ≤ room.members.length
            · left
              simp [httpJoinRoom, hr, hex, hnm, hdup, hfull]
            · rcases hadd : s.db.addMember roomId (some sess.id) none (jsTrim n) none false
                  (s.now / 1000) with _ | ⟨row2, db2⟩
              · left
                simp [httpJoinRoom, hr, hex, hnm, hdup, hfull, hadd]
              · right; right
                refine ⟨jsTrim n, row2, db2, hadd, ?_, ?_⟩
                · simp [httpJoinRoom, hr, hex, hnm, hdup, hfull, hadd]
                · rw [← DB.roomCount_getRoom hr]
                  omega

theorem roomCount_cleanup_le (ids : List String) (s : ServerState) (rid : String) :
    ((ids.foldl (fun st r2 => { st with db := st.db.deleteRoom r2 }) s)).db.roomCount rid
      ≤ s.db.roomCount rid := by
  induction ids generalizing s with
  | nil => exact le_refl _
  | cons x xs ih =>
    exact le_trans (ih _) (DB.roomCount_deleteRoom_le s.db x rid)

def fullRow (i : Nat) (nm : String) : MemberRow :=
  { id := i, roomId := "r1", sessionId := none, socketId := none, name := nm,
    point := none, connected := false, joinedAt := 0 }

def fullMember (i : Nat) (nm : String) : Member :=
  { id := i, sessionId := none, socketId := none, name := nm, point := none,
    connected := false, joinedAt := 0 }

def fullDb : DB :=
  { rooms := [roomRow1],
    members := [fullRow 0 "u0", fullRow 1 "u1", fullRow 2 "u2", fullRow 3 "u3",
      fullRow 4 "u4", fullRow 5 "u5", fullRow 6 "u6", fullRow 7 "u7", fullRow 8 "u8",
      fullRow 9 "u9"],
    nextId := 10 }

def fullState : ServerState := { db := fullDb, pending := [], now := 1000 }

def fullRoom : Room :=
  { id := "r1", taskTitle := "task", taskDescription := none, adminToken := "tok",
    adminName := "alice", revealed := false, createdAt := 0,
    members := [fullMember 0 "u0", fullMember 1 "u1", fullMember 2 "u2",
      fullMember 3 "u3", fullMember 4 "u4", fullMember 5 "u5", fullMember 6 "u6",
      fullMember 7 "u7", fullMember 8 "u8", fullMember 9 "u9"] }

def zSock : Sock := { id := "sockZ", session := some { id := "sessZ", rooms := [] } }

/-- C2: the member count of a room never exceeds 10 across any server
operation; a realtime join of a new member into a full live room is
rejected with the room-full error and changes nothing in the store (only
the join-side pending cancellation runs); the HTTP join of a fresh name
into a full live room renders the room-full error and changes nothing;
and a join resolving to an existing member (a reconnection) is never
answered with the room-full error. -/
theorem claim_C2_capacity :
    (∀ (s : ServerState) (op : Op) (rid : String),
      s.db.roomCount rid ≤ MAX_ROOM_CAPACITY →
      (step s op).1.db.roomCount rid ≤ MAX_ROOM_CAPACITY) ∧
    (∀ (s : ServerState) (sock : Sock) (roomId : String)
        (name adminToken : Option String) (room : Room) (nm : String)
        (tok : Option String) (b : Bool),
      s.db.getRoom roomId = some room →
      isRoomExpired s.now room = false →
      joinResolution sock roomId name adminToken = some (nm, tok, b) →
      joinExistingMember s.db roomId sock nm = none →
      MAX_ROOM_CAPACITY ≤ room.members.length →
      roomJoinHandler s sock roomId name adminToken =
        ({ s with pending := s.pending.filter (fun p => p.1 ≠ joinPendingKey sock roomId) },
          [Event.roomError sock.id "Room is full. Maximum 10 users allowed."])) ∧
    (∀ (s : ServerState) (roomId : String) (n : String) (sess : Session) (room : Room),
      s.db.getRoom roomId = some room →
      isRoomExpired s.now room = false →
      ¬ jsTrim n = "" →
      (s.db.getMemberByName roomId (jsTrim n)).isSome = false →
      MAX_ROOM_CAPACITY ≤ room.members.length →
      httpJoinRoom s roomId (some n) sess =
        (s, [], HttpResult.renderJoin (some "Room is full. Maximum 10 users allowed."))) ∧
    (∀ (s : ServerState) (sock : Sock) (roomId : String)
        (name adminToken : Option String) (room : Room) (nm : String)
        (tok : Option String) (b : Bool) (em : Member),
      s.db.getRoom roomId = some room →
      isRoomExpired s.now room = false →
      joinResolution sock roomId name adminToken = some (nm, tok, b) →
      joinExistingMember s.db roomId sock nm = some em →
      ∀ e ∈ (roomJoinHandler s sock roomId name adminToken).2,
        e ≠ Event.roomError sock.id "Room is full. Maximum 10 users allowed.") := by
  refine ⟨?_, ?_, ?_, ?_⟩
  · intro s op rid hle
    cases op with
    | httpView roomId sess =>
      show (httpViewRoom s roomId sess).1.db.roomCount rid ≤ _
      unfold httpViewRoom
      split
      · exact hle
      · split
        · exact le_trans (DB.roomCount_deleteRoom_le _ _ _) hle
        · split
          · exact hle
          · exact hle
    | httpJoin roomId name sess =>
      show (httpJoinRoom s roomId name sess).1.db.roomCount rid ≤ _
      rcases httpJoinRoom_db_cases s roomId name sess with h | h | ⟨nm, row2, db2, hadd, h, hlt⟩
      · rw [h]
        exact hle
      · rw [h]
        exact le_trans (DB.roomCount_deleteRoom_le _ _ _) hle
      · rw [h, DB.roomCount_addMember hadd]
        by_cases hrid : rid = roomId
        · subst hrid
          rw [if_pos rfl]
          omega
        · simp only [if_neg hrid]
          omega
    | register newRoomId adminTok taskTitle taskDescription adminName sess =>
      show ((httpRegister s newRoomId adminTok taskTitle taskDescription adminName
        sess).1).db.roomCount rid ≤ _
      exact hle
    | rtJoin sock roomId name adminToken =>
      show (roomJoinHandler s sock roomId name adminToken).1.db.roomCount rid ≤ _
      rcases roomJoinHandler_db_cases s sock roomId name adminToken with
        h | h | ⟨mid, si, h⟩ | ⟨nm, row2, db2, hadd, h, hlt⟩
      · rw [h]
        exact hle
      · rw [h]
        exact le_trans (DB.roomCount_deleteRoom_le _ _ _) hle
      · rw [h, DB.roomCount_updateMemberSocket]
        exact hle
      · rw [h, DB.roomCount_addMember hadd]
        by_cases hrid : rid = roomId
        · subst hrid
          rw [if_pos rfl]
          omega
        · simp only [if_neg hrid]
          omega
    | rtVote sock roomId p =>
      show (voteSubmitHandler s sock roomId p).1.db.roomCount rid ≤ _
      rcases hr : s.db.getRoom roomId with _ | room
      · rw [voteSubmitHandler_missing hr]
        exact hle
      · by_cases hex : isRoomExpired s.now room = true
        · rw [voteSubmitHandler_expired hr hex]
          exact le_trans (DB.roomCount_deleteRoom_le _ _ _) hle
        · rw [Bool.not_eq_true] at hex
          rcases hmem : s.db.getMemberBySocket roomId sock.id with _ | member
          · rw [voteSubmitHandler_nomember hr hex hmem]
            exact hle
          · obtain ⟨room2, heq, _, _⟩ := voteSubmitHandler_member hr hex hmem
            rw [heq]
            show (s.db.updateMemberPoint member.id p).roomCount rid ≤ _
            rw [DB.roomCount_updateMemberPoint]
            exact hle
    | rtReveal sock roomId =>
      show (votesRevealHandler s sock roomId).1.db.roomCount rid ≤ _
      rcases hr : s.db.getRoom roomId with _ | room
      · rw [votesRevealHandler_missing hr]
        exact hle
      · by_cases hex : isRoomExpired s.now room = true
        · rw [votesRevealHandler_expired hr hex]
          exact le_trans (DB.roomCount_deleteRoom_le _ _ _) hle
        · rw [Bool.not_eq_true] at hex
          by_cases ha : isAuthorizedAdmin sock roomId room = true
          · rw [votesRevealHandler_live_auth hr hex ha]
            exact hle
          · rw [Bool.not_eq_true] at ha
            rw [votesRevealHandler_unauth hr hex ha]
            exact hle
    | rtReset sock roomId =>
      show (votesResetHandler s sock roomId).1.db.roomCount rid ≤ _
      rcases hr : s.db.getRoom roomId with _ | room
      · rw [votesResetHandler_missing hr]
        exact hle
      · by_cases hex : isRoomExpired s.now room = true
        · rw [votesResetHandler_expired hr hex]
          exact le_trans (DB.roomCount_deleteRoom_le _ _ _) hle
        · rw [Bool.not_eq_true] at hex
          by_cases ha : isAuthorizedAdmin sock roomId room = true
          · obtain ⟨room2, heq, _, _, _, _, _⟩ := votesResetHandler_live_auth hr hex ha
            rw [heq]
            show ((s.db.resetAllMemberPoints roomId).setRoomRevealed roomId
              false).roomCount rid ≤ _
            rw [DB.roomCount_setRoomRevealed, DB.roomCount_resetAllMemberPoints]
            exact hle
          · rw [Bool.not_eq_true] at ha
            rw [votesResetHandler_unauth hr hex ha]
            exact hle
    | rtEnd sock roomId =>
      show (roomEndHandler s sock roomId).1.db.roomCount rid ≤ _
      rcases hr : s.db.getRoom roomId with _ | room
      · rw [roomEndHandler_missing hr]
        exact hle
      · by_cases ha : isAuthorizedAdmin sock roomId room = true
        · rw [roomEndHandler_auth hr ha]
          exact le_trans (DB.roomCount_deleteRoom_le _ _ _) hle
        · rw [Bool.not_eq_true] at ha
          rw [roomEndHandler_unauth hr ha]
          exact hle
    | sockDisconnect attrs =>
      show (disconnectHandler s attrs).1.db.roomCount rid ≤ _
      rcases attrs with _ | a
      · exact hle
      · rw [(disconnectHandler_db s a).1, DB.roomCount_updateMemberConnection]
        exact hle
    | timerFire key roomId =>
      show (roomDeletionTimerFire s key roomId).1.db.roomCount rid ≤ _
      unfold roomDeletionTimerFire
      split
      · exact le_trans (DB.roomCount_deleteRoom_le _ _ _) hle
      · exact hle
    | sweep =>
      show (cleanupTick s).1.db.roomCount rid ≤ _
      exact le_trans (roomCount_cleanup_le _ _ _) hle
  · intro s sock roomId name adminToken room nm tok b hr hex hres hem hfull
    exact roomJoinHandler_full hr hex hres hem hfull
  · intro s roomId n sess room hr hex hnm hdup hfull
    simp [httpJoinRoom, hr, hex, hnm, hdup, hfull]
  · intro s sock roomId name adminToken room nm tok b em hr hex hres hem e he
    obtain ⟨room2, heq, _, _, _, _⟩ := roomJoinHandler_existing hr hex hres hem
    rw [heq] at he
    simp only [List.mem_cons, List.mem_singleton, List.not_mem_nil, or_false] at he
    rcases he with he | he
    · rw [he]
      simp
    · rw [he]
      split <;> simp

/-- Every member vote value an event exposes on the wire: the point
fields of sanitized member lists and reveal entries, and the raw
previousVote of a room:joined payload when it carries one. -/
def Event.sentPoints : Event → List (Option Val)
  | Event.roomJoined _ room _ _ _ _ pv =>
      room.members.map SanMember.point ++
        (match pv with
         | PrevVote.value p => [p]
         | PrevVote.voted _ => [])
  | Event.memberJoined _ _ ms => ms.map SanMember.point
  | Event.memberReconnected _ _ ms => ms.map SanMember.point
  | Event.voteUpdated _ ms _ => ms.map SanMember.point
  | Event.votesRevealed _ es _ => es.map RevealEntry.point
  | Event.votesReset _ ms => ms.map SanMember.point
  | Event.memberDisconnected _ _ ms => ms.map SanMember.point
  | _ => []

/-- The room a payload concerns. -/
def Event.channel : Event → String
  | Event.roomJoined _ room _ _ _ _ _ => room.id
  | Event.memberJoined rid _ _ => rid
  | Event.memberReconnected rid _ _ => rid
  | Event.voteUpdated rid _ _ => rid
  | Event.votesRevealed rid _ _ => rid
  | Event.votesReset rid _ => rid
  | Event.memberDisconnected rid _ _ => rid
  | Event.roomExpired rid _ => rid
  | Event.roomEnded rid _ => rid
  | _ => ""

theorem revealed_row_of_getRoom {db : DB} {rid : String} {room : Room}
    (h : db.getRoom rid = some room) (hrev : room.revealed = true) :
    ∃ row, db.getRoomRow rid = some row ∧ row.revealed = true := by
  obtain ⟨row, hrow, hr2, _⟩ := getRoom_row_revealed h
  exact ⟨row, hrow, by rw [hr2, hrev]⟩

theorem httpViewRoom_events (s : ServerState) (rid : String) (sess : Option Session) :
    (httpViewRoom s rid sess).2.1 = [] := by
  unfold httpViewRoom
  split
  · rfl
  · split
    · rfl
    · split <;> rfl

theorem httpJoinRoom_sentPoints (s : ServerState) (rid : String) (name : Option String)
    (sess : Session) :
    ∀ e ∈ (httpJoinRoom s rid name sess).2.1, Event.sentPoints e = [] := by
  intro e he
  unfold httpJoinRoom at he
  split at he
  · simp at he
  · split at he
    · simp at he
    · split at he
      · simp at he
      · split at he
        · simp at he
        · split at he
          · simp at he
          · split at he
            · simp at he
            · split at he
              · simp at he
              · simp only [List.mem_singleton] at he
                subst he
                rfl

theorem roomDeletionTimerFire_events (s : ServerState) (key rid : String) :
    (roomDeletionTimerFire s key rid).2 = [] := by
  unfold roomDeletionTimerFire
  split <;> rfl

theorem disconnectHandler_events_cases (s : ServerState) (a : SockAttrs) :
    (disconnectHandler s (some a)).2 = [] ∨
    ∃ room, (s.db.updateMemberConnection a.memberId none false).getRoom a.roomId =
        some room ∧
      (disconnectHandler s (some a)).2 =
        [Event.memberDisconnected a.roomId a.userName (getSanitizedMembers room)] := by
  rcases hroom : (s.db.updateMemberConnection a.memberId none false).getRoom a.roomId
    with _ | room
  · left
    simp [disconnectHandler, hroom]
  · right
    refine ⟨room, rfl, ?_⟩
    by_cases hc : (s.db.updateMemberConnection a.memberId none
        false).getConnectedMemberCount a.roomId = 0 <;>
      simp [disconnectHandler, hroom, hc]

/-- C1: getSanitizedMembers of an unrevealed room exposes, per member,
only the has-voted boolean (point !== null) and the connected status,
with the point field null; and across every server operation, any emitted
payload carrying a non-null member vote value concerns a room whose
stored revealed flag is true in the post-operation store. -/
theorem claim_C1_sanitized_broadcasts :
    (∀ room : Room, room.revealed = false →
      getSanitizedMembers room = room.members.map (fun m =>
        { name := m.name, hasVoted := m.point.isSome, point := none,
          connected := m.connected })) ∧
    (∀ (s : ServerState) (op : Op), ∀ e ∈ (step s op).2,
      ∀ p ∈ e.sentPoints, p.isSome = true →
      ∃ row, (step s op).1.db.getRoomRow e.channel = some row ∧
        row.revealed = true) := by
  constructor
  · intro room h
    unfold getSanitizedMembers
    rw [h]
    simp
  · intro s op e he p hp hs
    cases op with
    | httpView roomId sess =>
      rw [show (step s (Op.httpView roomId sess)).2 = [] from
        httpViewRoom_events s roomId sess] at he
      simp at he
    | httpJoin roomId name sess =>
      rw [httpJoinRoom_sentPoints s roomId name sess e he] at hp
      simp at hp
    | register newRoomId adminTok taskTitle taskDescription adminName sess =>
      simp only [step, httpRegister, List.mem_singleton] at he
      subst he
      simp [Event.sentPoints] at hp
    | sweep =>
      simp only [step, cleanupTick] at he
      obtain ⟨rid2, _, he⟩ := List.mem_map.mp he
      subst he
      simp [Event.sentPoints] at hp
    | timerFire key roomId =>
      rw [show (step s (Op.timerFire key roomId)).2 = [] from
        roomDeletionTimerFire_events s key roomId] at he
      simp at he
    | sockDisconnect attrs =>
      simp only [step] at he ⊢
      rcases attrs with _ | a
      · simp [disconnectHandler] at he
      · rcases disconnectHandler_events_cases s a with hev | ⟨room, hroom, hev⟩
        · rw [hev] at he
          simp at he
        · rw [hev] at he
          simp only [List.mem_singleton] at he
          subst he
          simp only [Event.sentPoints] at hp
          have hrev := sanitized_point_some_revealed hp hs
          simp only [Event.channel]
          rw [(disconnectHandler_db s a).1]
          exact revealed_row_of_getRoom hroom hrev
    | rtVote sock roomId pt =>
      simp only [step] at he ⊢
      rcases hr : s.db.getRoom roomId with _ | room
      · rw [voteSubmitHandler_missing hr] at he
        simp only [List.mem_singleton] at he
        subst he
        simp [Event.sentPoints] at hp
      · by_cases hex : isRoomExpired s.now room = true
        · rw [voteSubmitHandler_expired hr hex] at he
          simp only [List.mem_cons, List.mem_singleton, List.not_mem_nil, or_false] at he
          rcases he with he | he <;> (subst he; simp [Event.sentPoints] at hp)
        · rw [Bool.not_eq_true] at hex
          rcases hmem : s.db.getMemberBySocket roomId sock.id with _ | member
          · rw [voteSubmitHandler_nomember hr hex hmem] at he
            simp only [List.mem_singleton] at he
            subst he
            simp [Event.sentPoints] at hp
          · obtain ⟨room2, heq, hfresh, _⟩ := voteSubmitHandler_member hr hex hmem
            rw [heq] at he
            simp only [List.mem_singleton] at he
            subst he
            simp only [Event.sentPoints] at hp
            have hrev := sanitized_point_some_revealed hp hs
            simp only [Event.channel]
            rw [heq]
            exact revealed_row_of_getRoom hfresh hrev
    | rtReveal sock roomId =>
      simp only [step] at he ⊢
      rcases hr : s.db.getRoom roomId with _ | room
      · rw [votesRevealHandler_missing hr] at he
        simp only [List.mem_singleton] at he
        subst he
        simp [Event.sentPoints] at hp
      · by_cases hex : isRoomExpired s.now room = true
        · rw [votesRevealHandler_expired hr hex] at he
          simp only [List.mem_cons, List.mem_singleton, List.not_mem_nil, or_false] at he
          rcases he with he | he <;> (subst he; simp [Event.sentPoints] at hp)
        · rw [Bool.not_eq_true] at hex
          by_cases ha : isAuthorizedAdmin sock roomId room = true
          · rw [votesRevealHandler_live_auth hr hex ha] at he
            simp only [List.mem_singleton] at he
            subst he
            simp only [Event.channel]
            rw [votesRevealHandler_live_auth hr hex ha]
            obtain ⟨row, hrow, _, _⟩ := getRoom_some hr
            refine ⟨{ row with revealed := true }, ?_, rfl⟩
            show (s.db.setRoomRevealed roomId true).getRoomRow roomId = _
            rw [DB.getRoomRow_setRoomRevealed_self, hrow]
            rfl
          · rw [Bool.not_eq_true] at ha
            rw [votesRevealHandler_unauth hr hex ha] at he
            simp only [List.mem_singleton] at he
            subst he
            simp [Event.sentPoints] at hp
    | rtReset sock roomId =>
      simp only [step] at he ⊢
      rcases hr : s.db.getRoom roomId with _ | room
      · rw [votesResetHandler_missing hr] at he
        simp only [List.mem_singleton] at he
        subst he
        simp [Event.sentPoints] at hp
      · by_cases hex : isRoomExpired s.now room = true
        · rw [votesResetHandler_expired hr hex] at he
          simp only [List.mem_cons, List.mem_singleton, List.not_mem_nil, or_false] at he
          rcases he with he | he <;> (subst he; simp [Event.sentPoints] at hp)
        · rw [Bool.not_eq_true] at hex
          by_cases ha : isAuthorizedAdmin sock roomId room = true
          · obtain ⟨room2, heq, _, hrev2, _, _, _⟩ := votesResetHandler_live_auth hr hex ha
            rw [heq] at he
            simp only [List.mem_singleton] at he
            subst he
            simp only [Event.sentPoints] at hp
            have := sanitized_point_some_revealed hp hs
            simp [hrev2] at this
          · rw [Bool.not_eq_true] at ha
            rw [votesResetHandler_unauth hr hex ha] at he
            simp only [List.mem_singleton] at he
            subst he
            simp [Event.sentPoints] at hp
    | rtEnd sock roomId =>
      simp only [step] at he ⊢
      rcases hr : s.db.getRoom roomId with _ | room
      · rw [roomEndHandler_missing hr] at he
        simp only [List.mem_singleton] at he
        subst he
        simp [Event.sentPoints] at hp
      · by_cases ha : isAuthorizedAdmin sock roomId room = true
        · rw [roomEndHandler_auth hr ha] at he
          simp only [List.mem_singleton] at he
          subst he
          simp [Event.sentPoints] at hp
        · rw [Bool.not_eq_true] at ha
          rw [roomEndHandler_unauth hr ha] at he
          simp only [List.mem_singleton] at he
          subst he
          simp [Event.sentPoints] at hp
    | rtJoin sock roomId name adminToken =>
      simp only [step] at he ⊢
      rcases hr : s.db.getRoom roomId with _ | room
      · rw [roomJoinHandler_missing hr] at he
        simp only [List.mem_singleton] at he
        subst he
        simp [Event.sentPoints] at hp
      · by_cases hex : isRoomExpired s.now room = true
        · rw [roomJoinHandler_expired hr hex] at he
          simp only [List.mem_cons, List.mem_singleton, List.not_mem_nil, or_false] at he
          rcases he with he | he <;> (subst he; simp [Event.sentPoints] at hp)
        · rw [Bool.not_eq_true] at hex
          rcases hres : joinResolution sock roomId name adminToken with _ | ⟨nm, tok, b⟩
          · rw [roomJoinHandler_needsName hr hex hres] at he
            simp only [List.mem_singleton] at he
            subst he
            simp [Event.sentPoints] at hp
          · rcases hem : joinExistingMember s.db roomId sock nm with _ | em
            · by_cases hcap : MAX_ROOM_CAPACITY ≤ room.members.length
              · rw [roomJoinHandler_full hr hex hres hem hcap] at he
                simp only [List.mem_singleton] at he
                subst he
                simp [Event.sentPoints] at hp
              · have hcap2 : room.members.length < MAX_ROOM_CAPACITY := by omega
                rcases hadd : s.db.addMember roomId (sock.session.map Session.id)
                    (some sock.id) nm none true (s.now / 1000) with _ | ⟨row2, db2⟩
                · rw [roomJoinHandler_dupName hr hex hres hem hcap2 hadd] at he
                  simp only [List.mem_singleton] at he
                  subst he
                  simp [Event.sentPoints] at hp
                · obtain ⟨room2, sevs, heq, hfresh, _, hid2, _, hsevs⟩ :=
                    roomJoinHandler_new hr hex hres hem hcap2 hadd
                  rw [heq] at he
                  rw [List.mem_append] at he
                  rcases he with he | he
                  · obtain ⟨sid2, us2, hes, _, _⟩ := hsevs e he
                    subst hes
                    simp [Event.sentPoints] at hp
                  · simp only [List.mem_cons, List.mem_singleton, List.not_mem_nil,
                      or_false] at he
                    rcases he with he | he
                    · subst he
                      simp only [Event.sentPoints] at hp
                      rw [List.mem_append] at hp
                      have hrev2 : room2.revealed = true := by
                        rcases hp with hp | hp
                        · exact sanitized_point_some_revealed hp hs
                        · by_cases hr2 : room2.revealed = true
                          · exact hr2
                          · rw [Bool.not_eq_true] at hr2
                            rw [hr2] at hp
                            simp at hp
                      have hch : ((getSanitizedRoom room2).id : String) = roomId := hid2
                      simp only [Event.channel]
                      rw [hch, heq]
                      exact revealed_row_of_getRoom hfresh hrev2
                    · subst he
                      simp only [Event.sentPoints] at hp
                      have hrev2 := sanitized_point_some_revealed hp hs
                      simp only [Event.channel]
                      rw [heq]
                      exact revealed_row_of_getRoom hfresh hrev2
            · obtain ⟨room2, heq, hfresh, _, hid2, _⟩ :=
                roomJoinHandler_existing hr hex hres hem
              rw [heq] at he
              simp only [List.mem_cons, List.mem_singleton, List.not_mem_nil,
                or_false] at he
              rcases he with he | he
              · subst he
                simp only [Event.sentPoints] at hp
                rw [List.mem_append] at hp
                have hrev2 : room2.revealed = true := by
                  rcases hp with hp | hp
                  · exact sanitized_point_some_revealed hp hs
                  · by_cases hr2 : room2.revealed = true
                    · exact hr2
                    · rw [Bool.not_eq_true] at hr2
                      rw [hr2] at hp
                      simp at hp
                have hch : ((getSanitizedRoom room2).id : String) = roomId := hid2
                simp only [Event.channel]
                rw [hch, heq]
                exact revealed_row_of_getRoom hfresh hrev2
              · rcases hif : (!(em.connected || em.socketId.isSome) ||
                    !(em.connected || em.socketId.isSome) : Bool) with _ | _
                all_goals rw [hif] at he
                all_goals simp only [Bool.false_eq_true, if_false, if_true] at he
                all_goals subst he
                all_goals simp only [Event.sentPoints] at hp
                all_goals have hrev2 := sanitized_point_some_revealed hp hs
                all_goals simp only [Event.channel]
                all_goals rw [heq]
                all_goals exact revealed_row_of_getRoom hfresh hrev2

theorem claim_C1_sanitized_broadcasts_witness :
    (getSanitizedMembers room1 = room1.members.map (fun m =>
      { name := m.name, hasVoted := m.point.isSome, point := none,
        connected := m.connected })) ∧
    ∃ row, (step state1 (Op.rtReveal adminSock "r1")).1.db.getRoomRow
        (Event.votesRevealed "r1"
          (room1.members.map (fun m =>
            { name := m.name, point := m.point, hasVoted := m.point.isSome }))
          (computeAverage room1.members)).channel = some row ∧
      row.revealed = true := by
  constructor
  · exact claim_C1_sanitized_broadcasts.1 room1 (by decide)
  · exact claim_C1_sanitized_broadcasts.2 state1 (Op.rtReveal adminSock "r1") _
      (by rw [show (step state1 (Op.rtReveal adminSock "r1")).2 =
            (votesRevealHandler state1 adminSock "r1").2 from rfl,
          @votesRevealHandler_live_auth state1 adminSock "r1" room1 (by decide) (by decide)
            (by decide)]
          ; exact List.mem_singleton.mpr rfl)
      (some (Val.num 5)) (by decide) (by decide)

/-- The member-row transformation the disconnect handler applies through
updateMemberConnection(memberId, null, false). -/
def disconnectUpdate (mid : Nat) (m : MemberRow) : MemberRow :=
  if m.id = mid then { m with socketId := none, connected := false } else m

def attrsA : SockAttrs :=
  { roomId := "r1", userName := "alice", sessionId := some "sessA", memberId := 0 }

def rejoinUserSession : UserSession :=
  { name := "alice", isAdmin := false, adminToken := none, joinedAt := 0 }

def rejoinSession : Session := { id := "sessA", rooms := [("r1", rejoinUserSession)] }

def rejoinSock : Sock := { id := "sockA2", session := some rejoinSession }

def state1d : ServerState := (disconnectHandler state1 (some attrsA)).1

theorem claim_C2_capacity_witness :
    (step fullState (Op.rtJoin zSock "r1" (some "zoe") none)).1.db.roomCount "r1" ≤
      MAX_ROOM_CAPACITY ∧
    roomJoinHandler fullState zSock "r1" (some "zoe") none =
      ({ fullState with
          pending := fullState.pending.filter (fun p => p.1 ≠ joinPendingKey zSock "r1") },
        [Event.roomError "sockZ" "Room is full. Maximum 10 users allowed."]) ∧
    httpJoinRoom fullState "r1" (some "zoe") { id := "sessZ", rooms := [] } =
      (fullState, [],
        HttpResult.renderJoin (some "Room is full. Maximum 10 users allowed.")) ∧
    (∀ e ∈ (roomJoinHandler state1 rejoinSock "r1" none none).2,
      e ≠ Event.roomError rejoinSock.id "Room is full. Maximum 10 users allowed.") :=
  by
  refine ⟨?_, ?_, ?_, ?_⟩
  · exact claim_C2_capacity.1 fullState (Op.rtJoin zSock "r1" (some "zoe") none) "r1"
      (by decide)
  · exact claim_C2_capacity.2.1 fullState zSock "r1" (some "zoe") none fullRoom "zoe"
      none true (by decide) (by decide) (by decide) (by decide) (by decide)
  · exact claim_C2_capacity.2.2.1 fullState "r1" "zoe" { id := "sessZ", rooms := [] }
      fullRoom (by decide) (by decide) (by decide) (by decide) (by decide)
  · have h1 : joinResolution rejoinSock "r1" none none = some ("alice", none, false) := by
      decide
    have h2 : joinExistingMember state1.db "r1" rejoinSock "alice" = some memberA := by
      decide
    exact claim_C2_capacity.2.2.2 state1 rejoinSock "r1" none none room1 "alice" none
      false memberA (by decide) (by decide) h1 h2


/-- C9: a disconnect only flips the member's connected flag to false and
its connection identifier to null; the member row is not deleted, its
name, session identifier, stored point, join time, id and room are
unchanged, every other member row is untouched, and a member found again
by session identifier on rejoin is updated in place, keeping its point
with no duplicate added to the member list. -/
theorem claim_C9_disconnect_frame :
    (∀ (s : ServerState) (a : SockAttrs),
      (disconnectHandler s (some a)).1.db.members =
        s.db.members.map (disconnectUpdate a.memberId)) ∧
    (∀ (s : ServerState) (a : SockAttrs),
      (disconnectHandler s (some a)).1.db.members.length = s.db.members.length) ∧
    (∀ (mid : Nat) (m : MemberRow),
      (disconnectUpdate mid m).name = m.name ∧
      (disconnectUpdate mid m).sessionId = m.sessionId ∧
      (disconnectUpdate mid m).point = m.point ∧
      (disconnectUpdate mid m).joinedAt = m.joinedAt ∧
      (disconnectUpdate mid m).id = m.id ∧
      (disconnectUpdate mid m).roomId = m.roomId ∧
      (m.id = mid → (disconnectUpdate mid m).socketId = none ∧
        (disconnectUpdate mid m).connected = false)) ∧
    (∀ (s : ServerState) (sock : Sock) (roomId : String)
        (name adminToken : Option String) (room : Room) (nm : String)
        (tok : Option String) (b : Bool) (em : Member),
      s.db.getRoom roomId = some room →
      isRoomExpired s.now room = false →
      joinResolution sock roomId name adminToken = some (nm, tok, b) →
      joinExistingMember s.db roomId sock nm = some em →
      ∃ room2,
        (roomJoinHandler s sock roomId name adminToken).1.db.getRoom roomId =
          some room2 ∧
        room2.members.length = room.members.length ∧
        room2.members.map Member.point = room.members.map Member.point ∧
        room2.members.map Member.name = room.members.map Member.name) := by
  refine ⟨?_, ?_, ?_, ?_⟩
  · intro s a
    rw [(disconnectHandler_db s a).1]
    rfl
  · intro s a
    rw [(disconnectHandler_db s a).1]
    exact List.length_map _ _
  · intro mid m
    by_cases hm : m.id = mid <;> simp [disconnectUpdate, hm]
  · intro s sock roomId name adminToken room nm tok b em hr hex hres hem
    obtain ⟨room2, heq, hfresh, _, _, hmems⟩ := roomJoinHandler_existing hr hex hres hem
    refine ⟨room2, by rw [heq]; exact hfresh, ?_, ?_, ?_⟩
    · rw [hmems]
      exact List.length_map _ _
    · rw [hmems, List.map_map]
      refine List.map_congr_left (fun m _ => ?_)
      by_cases hm : m.id = em.id <;> simp [Function.comp, hm]
    · rw [hmems, List.map_map]
      refine List.map_congr_left (fun m _ => ?_)
      by_cases hm : m.id = em.id <;> simp [Function.comp, hm]

def memberAd : Member :=
  { id := 0, sessionId := some "sessA", socketId := none, name := "alice",
    point := some (Val.num 5), connected := false, joinedAt := 0 }

def room1d : Room :=
  { id := "r1", taskTitle := "task", taskDescription := none, adminToken := "tok",
    adminName := "alice", revealed := false, createdAt := 0,
    members := [memberAd, memberB, memberC] }

theorem claim_C9_disconnect_frame_witness :
    (state1d.db.members = state1.db.members.map (disconnectUpdate 0)) ∧
    ∃ room2,
      (roomJoinHandler state1d rejoinSock "r1" none none).1.db.getRoom "r1" =
        some room2 ∧
      room2.members.length = room1d.members.length ∧
      room2.members.map Member.point = room1d.members.map Member.point ∧
      room2.members.map Member.name = room1d.members.map Member.name :=
  ⟨claim_C9_disconnect_frame.1 state1 attrsA,
    claim_C9_disconnect_frame.2.2.2 state1d rejoinSock "r1" none none room1d "alice"
      none false memberAd (by decide) (by decide) (by decide) (by decide)⟩

def dbSolo : DB := { rooms := [roomRow1], members := [memberRowA], nextId := 1 }

def soloState : ServerState := { db := dbSolo, pending := [], now := 1000 }

def soloStateD : ServerState := (disconnectHandler soloState (some attrsA)).1

/-- C5: the grace-period deletion timer installed when room r1 empties is
keyed room:r1, but the rejoin cancellation only removes the key
r1:sessA, so the pending timer entry survives the member's rejoin — the
join does not cancel the timer (the room later survives only because the
fire-time guard re-checks the connected count, which the rejoin restored
to one). -/
theorem claim_C5_timer_cancel_bug :
    soloStateD.pending = [("room:r1", "r1")] ∧
    joinPendingKey rejoinSock "r1" = "r1:sessA" ∧
    (roomJoinHandler soloStateD rejoinSock "r1" none none).1.pending =
      [("room:r1", "r1")] ∧
    (roomJoinHandler soloStateD rejoinSock "r1" none none).1.db.getConnectedMemberCount
      "r1" = 1 ∧
    (roomDeletionTimerFire (roomJoinHandler soloStateD rejoinSock "r1" none none).1
      "room:r1" "r1").1.db.getRoomRow "r1" = some roomRow1 := by
  decide

/-- C7 fails as stated: member carol submits the string vote "5"; reading
the room from the store immediately after yields the number 5 for carol,
not the identical value "5" — the TEXT round trip of the store coerces
numeric strings to numbers. -/
theorem claim_C7_round_trip_counterexample :
    ((db1.updateMemberPoint 2 (some (Val.str "5"))).getRoom "r1").map
        (fun room => room.members.map Member.point) =
      some [some (Val.num 5), some (Val.num 8), some (Val.num 5)] ∧
    Val.num 5 ≠ Val.str "5" := by
  decide

/-- C7 amended: storing vote v for member m and reading the room back
yields coerceVote v for m — exactly v when v is a number or a string that
does not parse as a number, and the parsed number (JavaScript-loose-equal
to v) when v is a numeric string — while every other member's record is
unchanged; and the vote:submit handler performs exactly this store write
for the resolved member. -/
theorem claim_C7_vote_round_trip_amended :
    (∀ (db : DB) (rid : String) (mid : Nat) (v : Val),
      (db.updateMemberPoint mid (some v)).getRoom rid =
        (db.getRoom rid).map (fun room =>
          { room with
            members := room.members.map (fun m =>
              if m.id = mid then { m with point := some (coerceVote v) } else m) })) ∧
    (∀ n : Int, coerceVote (Val.num n) = Val.num n) ∧
    (∀ t : String, jsNumberOfString t = none → coerceVote (Val.str t) = Val.str t) ∧
    (∀ v : Val, jsLooseEq (coerceVote v) v = true) ∧
    (∀ (s : ServerState) (sock : Sock) (roomId : String) (room : Room) (member : Member)
        (p : Option Val),
      s.db.getRoom roomId = some room →
      isRoomExpired s.now room = false →
      s.db.getMemberBySocket roomId sock.id = some member →
      (voteSubmitHandler s sock roomId p).1.db =
        s.db.updateMemberPoint member.id p) := by
  refine ⟨?_, coerceVote_num, coerceVote_str_of_nonnumeric, jsLooseEq_coerceVote, ?_⟩
  · intro db rid mid v
    unfold DB.getRoom
    rw [DB.getRoomRow_updateMemberPoint]
    cases hrow : db.getRoomRow rid
    · rfl
    · rename_i row
      have hro : (db.updateMemberPoint mid (some v)).roomOfRow rid row =
          { db.roomOfRow rid row with
            members := (db.roomOfRow rid row).members.map (fun m =>
              if m.id = mid then { m with point := some (coerceVote v) } else m) } := by
        unfold DB.roomOfRow
        simp only [DB.parsedMembers_updateMemberPoint]
        rfl
      show some ((db.updateMemberPoint mid (some v)).roomOfRow rid row) =
        some { db.roomOfRow rid row with
          members := (db.roomOfRow rid row).members.map (fun m =>
            if m.id = mid then { m with point := some (coerceVote v) } else m) }
      rw [hro]
  · intro s sock roomId room member p hr hex hmem
    obtain ⟨room2, heq, _, _⟩ := voteSubmitHandler_member hr hex hmem
    rw [heq]

theorem claim_C7_vote_round_trip_amended_witness :
    ((db1.updateMemberPoint 2 (some (Val.str "?"))).getRoom "r1" =
      (db1.getRoom "r1").map (fun room =>
        { room with
          members := room.members.map (fun m =>
            if m.id = 2 then { m with point := some (coerceVote (Val.str "?")) }
            else m) })) ∧
    (jsNumberOfString "?" = none ∧ coerceVote (Val.str "?") = Val.str "?") ∧
    (voteSubmitHandler state1 { id := "sockB", session := none } "r1"
        (some (Val.num 3))).1.db =
      state1.db.updateMemberPoint memberB.id (some (Val.num 3)) :=
  ⟨claim_C7_vote_round_trip_amended.1 db1 "r1" 2 (Val.str "?"),
    ⟨by decide, claim_C7_vote_round_trip_amended.2.2.1 "?" (by decide)⟩,
    claim_C7_vote_round_trip_amended.2.2.2.2 state1 { id := "sockB", session := none }
      "r1" room1 memberB (some (Val.num 3)) (by decide) (by decide) (by decide)⟩

/-- C4 as stated is false on room:end: on an expired room, room:end
performs no expiry handling — here it emits only an unauthorized error,
deletes nothing, and broadcasts no expiry notification, although the
room's age exceeds the lifetime. -/
theorem claim_C4_expiry_counterexample :
    expiredState.db.getRoom "r1" = some room1 ∧
    isRoomExpired expiredState.now room1 = true ∧
    roomEndHandler expiredState plainSock "r1" =
      (expiredState, [Event.roomError "sockP" "Only the admin can end the session."]) := by
  refine ⟨by decide, by decide, ?_⟩
  exact @roomEndHandler_unauth expiredState plainSock "r1" room1 (by decide) (by decide)

/-- C4 amended: the four realtime operations that go through
checkRoomExpiration (join, vote submit, reveal, reset) do, on an expired
room, first broadcast the expiry notification to the room channel, delete
the room, and fail the triggering operation with a room error; the HTTP
room view and HTTP join delete the expired room and redirect without
broadcasting anything; and room:end performs no expiration check — on an
expired room it proceeds: without a matching admin session it fails as
unauthorized and leaves the expired room in place, and with one it ends
the room with a room-ended (not expiry) broadcast. -/
theorem claim_C4_expiry_amended :
    (∀ (s : ServerState) (sock : Sock) (roomId : String) (name adminToken : Option String)
        (room : Room),
      s.db.getRoom roomId = some room → isRoomExpired s.now room = true →
      roomJoinHandler s sock roomId name adminToken =
        ({ s with db := s.db.deleteRoom roomId },
          [Event.roomExpired roomId "Room has expired after 10 minutes.",
            Event.roomError sock.id "Room not found or has expired."])) ∧
    (∀ (s : ServerState) (sock : Sock) (roomId : String) (p : Option Val) (room : Room),
      s.db.getRoom roomId = some room → isRoomExpired s.now room = true →
      voteSubmitHandler s sock roomId p =
        ({ s with db := s.db.deleteRoom roomId },
          [Event.roomExpired roomId "Room has expired after 10 minutes.",
            Event.roomError sock.id "Room not found or has expired."])) ∧
    (∀ (s : ServerState) (sock : Sock) (roomId : String) (room : Room),
      s.db.getRoom roomId = some room → isRoomExpired s.now room = true →
      votesRevealHandler s sock roomId =
        ({ s with db := s.db.deleteRoom roomId },
          [Event.roomExpired roomId "Room has expired after 10 minutes.",
            Event.roomError sock.id "Room not found or has expired."])) ∧
    (∀ (s : ServerState) (sock : Sock) (roomId : String) (room : Room),
      s.db.getRoom roomId = some room → isRoomExpired s.now room = true →
      votesResetHandler s sock roomId =
        ({ s with db := s.db.deleteRoom roomId },
          [Event.roomExpired roomId "Room has expired after 10 minutes.",
            Event.roomError sock.id "Room not found or has expired."])) ∧
    (∀ (s : ServerState) (roomId : String) (sess : Option Session) (room : Room),
      s.db.getRoom roomId = some room → isRoomExpired s.now room = true →
      httpViewRoom s roomId sess =
        ({ s with db := s.db.deleteRoom roomId }, [], HttpResult.redirect "/play")) ∧
    (∀ (s : ServerState) (roomId : String) (name : Option String) (sess : Session)
        (room : Room),
      s.db.getRoom roomId = some room → isRoomExpired s.now room = true →
      httpJoinRoom s roomId name sess =
        ({ s with db := s.db.deleteRoom roomId }, [], HttpResult.redirect "/play")) ∧
    (∀ (s : ServerState) (sock : Sock) (roomId : String) (room : Room),
      s.db.getRoom roomId = some room → isRoomExpired s.now room = true →
      isAuthorizedAdmin sock roomId room = false →
      roomEndHandler s sock roomId =
        (s, [Event.roomError sock.id "Only the admin can end the session."])) ∧
    (∀ (s : ServerState) (sock : Sock) (roomId : String) (room : Room),
      s.db.getRoom roomId = some room → isRoomExpired s.now room = true →
      isAuthorizedAdmin sock roomId room = true →
      roomEndHandler s sock roomId =
        ({ s with db := s.db.deleteRoom roomId },
          [Event.roomEnded roomId "The session has been ended by the admin."])) := by
  refine ⟨?_, ?_, ?_, ?_, ?_, ?_, ?_, ?_⟩
  · intro s sock roomId name adminToken room hr hex
    exact roomJoinHandler_expired hr hex
  · intro s sock roomId p room hr hex
    exact voteSubmitHandler_expired hr hex
  · intro s sock roomId room hr hex
    exact votesRevealHandler_expired hr hex
  · intro s sock roomId room hr hex
    exact votesResetHandler_expired hr hex
  · intro s roomId sess room hr hex
    exact httpViewRoom_expired hr hex
  · intro s roomId name sess room hr hex
    exact httpJoinRoom_expired hr hex
  · intro s sock roomId room hr _ hna
    exact roomEndHandler_unauth hr hna
  · intro s sock roomId room hr _ ha
    exact roomEndHandler_auth hr ha

theorem claim_C4_expiry_amended_witness :
    roomJoinHandler expiredState plainSock "r1" none none =
      ({ expiredState with db := expiredState.db.deleteRoom "r1" },
        [Event.roomExpired "r1" "Room has expired after 10 minutes.",
          Event.roomError "sockP" "Room not found or has expired."]) ∧
    httpViewRoom expiredState "r1" none =
      ({ expiredState with db := expiredState.db.deleteRoom "r1" }, [],
        HttpResult.redirect "/play") ∧
    roomEndHandler expiredState adminSock "r1" =
      ({ expiredState with db := expiredState.db.deleteRoom "r1" },
        [Event.roomEnded "r1" "The session has been ended by the admin."]) :=
  ⟨claim_C4_expiry_amended.1 expiredState plainSock "r1" none none room1 (by decide)
      (by decide),
    claim_C4_expiry_amended.2.2.2.2.1 expiredState "r1" none room1 (by decide) (by decide),
    claim_C4_expiry_amended.2.2.2.2.2.2.2 expiredState adminSock "r1" room1 (by decide)
      (by decide) (by decide)⟩

theorem claim_C8_reset_idempotent_witness :
    ((votesResetHandler (votesResetHandler state1 adminSock "r1").1 adminSock "r1").1 =
      (votesResetHandler state1 adminSock "r1").1) ∧
    ∃ room2, (votesResetHandler state1 adminSock "r1").1.db.getRoom "r1" = some room2 ∧
      room2.revealed = false ∧ ∀ m ∈ room2.members, m.point = none :=
  ⟨claim_C8_reset_idempotent.1 state1 adminSock "r1",
    claim_C8_reset_idempotent.2 state1 adminSock "r1" room1 (by decide) (by decide)
      (by decide)⟩

end NostraEstima
